import Mathlib

/-!
Shallow embedding of the UPS_gamba card-game server
(`src/UPS_Chlad/server`), covering the card model (`CardDeck.h/.cpp`),
the rule predicate (`GameRules.cpp`), the game engine (`GameLogic.cpp`),
the request-level layer (`GameManager.cpp`), the wire codec
(`ProtocolMessage.cpp`) and the router skeleton
(`MessageHandler.cpp` / `MessageValidator.cpp`).

Conventions:
- `std::vector<Card>` is a `List Card` in the same order (the vector's
  `back()` is the list's last element);
- C++ exceptions are `Except CppError`;
- sizes are `Nat` (all the sizes involved are non-negative);
- the random `shuffle` is modelled by passing the shuffled deck as an
  argument, quantified over permutations of the initial deck.
-/

namespace UPSGamba

/-! ### Card model (`CardDeck.h`, `CardDeck.cpp`) -/

/-- Embeds `enum class Suit { HEARTS, DIAMONDS, CLUBS, SPADES }` -/
inductive Suit where
  | HEARTS | DIAMONDS | CLUBS | SPADES
deriving DecidableEq, Repr

/-- Embeds `Rank`, a C++ enum with underlying values `TWO = 2 … KING = 13,
ACE = 14`; `parseCardFromString` can `static_cast` any int in `[1,13]`
into it, so the rank is modelled by its underlying numeric value. -/
abbrev Rank := Nat

namespace Rank
def TWO : Rank := 2
def SEVEN : Rank := 7
def TEN : Rank := 10
def JACK : Rank := 11
def QUEEN : Rank := 12
def KING : Rank := 13
def ACE : Rank := 14
end Rank

/-- Embeds `struct Card { Suit suit; Rank rank; }` -/
structure Card where
  suit : Suit
  rank : Rank
deriving DecidableEq, Repr

/-- Embeds `int Card::getValue() const { return static_cast<int>(rank); }` -/
def Card.getValue (c : Card) : Nat := c.rank

/-- Embeds `std::string Card::toString() const` -/
def Card.toString (c : Card) : String :=
  let suitStr : String :=
    match c.suit with
    | .HEARTS => "H"
    | .DIAMONDS => "D"
    | .CLUBS => "C"
    | .SPADES => "S"
  let rankStr : String :=
    if c.rank = Rank.ACE then "A"
    else if c.rank = Rank.JACK then "J"
    else if c.rank = Rank.QUEEN then "Q"
    else if c.rank = Rank.KING then "K"
    else ToString.toString c.rank
  rankStr ++ suitStr

/-- Embeds `bool Card::isSpecial() const` -/
def Card.isSpecial (c : Card) : Bool :=
  c.rank == Rank.TWO || c.rank == Rank.SEVEN || c.rank == Rank.TEN

/-- Embeds `void CardDeck::initializeStandardDeck()` — NOTE: the body is the
"TESTING" stub that generates only the 2 and the Ace of each suit
(8 cards); the full 52-card loop is commented out in the source. -/
def initializeStandardDeck : List Card :=
  [⟨.HEARTS, Rank.TWO⟩, ⟨.HEARTS, Rank.ACE⟩,
   ⟨.DIAMONDS, Rank.TWO⟩, ⟨.DIAMONDS, Rank.ACE⟩,
   ⟨.CLUBS, Rank.TWO⟩, ⟨.CLUBS, Rank.ACE⟩,
   ⟨.SPADES, Rank.TWO⟩, ⟨.SPADES, Rank.ACE⟩]

/-- The full 52-card standard deck the spec describes (every suit with
every rank 2..13 plus the ace), used to compare against the code's
`initializeStandardDeck`. -/
def fullStandardDeck : List Card :=
  ([Suit.HEARTS, Suit.DIAMONDS, Suit.CLUBS, Suit.SPADES].flatMap fun s =>
    ((List.range 12).map fun r => Card.mk s (r + 2)) ++ [Card.mk s Rank.ACE])

/-- Embeds `Card CardDeck::dealCard()` — takes from the back of the vector;
`none` models the `std::runtime_error` on an empty deck. -/
def dealCard (cards : List Card) : Option (Card × List Card) :=
  match cards.getLast? with
  | none => none
  | some c => some (c, cards.dropLast)

/-! ### Rules (`GameRules.cpp`) -/

namespace GameRules

/-- Embeds `bool GameRules::isWildCard(const Card&)` -/
def isWildCard (c : Card) : Bool := c.rank == Rank.TWO

/-- Embeds `bool GameRules::isReverseCard(const Card&)` -/
def isReverseCard (c : Card) : Bool := c.rank == Rank.SEVEN

/-- Embeds `bool GameRules::isBurnCard(const Card&)` -/
def isBurnCard (c : Card) : Bool := c.rank == Rank.TEN

/-- Embeds `bool GameRules::isHigherOrEqual(const Card&, const Card&)` -/
def isHigherOrEqual (cardToPlay topCard : Card) : Bool :=
  topCard.getValue ≤ cardToPlay.getValue

/-- Embeds `bool GameRules::canPlayOn(const Card&, const Card&, bool)` -/
def canPlayOn (cardToPlay topCard : Card) (mustPlaySevenOrLower : Bool) : Bool :=
  if isWildCard cardToPlay then true
  else if isWildCard topCard then true
  else if mustPlaySevenOrLower then cardToPlay.getValue ≤ 7
  else if isBurnCard cardToPlay then true
  else isHigherOrEqual cardToPlay topCard

/-- Embeds `bool GameRules::areMultipleCardsValid(const std::vector<Card>&)` —
all cards must share the first card's rank (vacuous for ≤ 1 card). -/
def areMultipleCardsValid (cards : List Card) : Bool :=
  match cards with
  | [] => true
  | c :: rest => rest.all fun x => x.rank == c.rank

/-- Embeds `bool GameRules::isValidPlay(const std::vector<Card>&, const Card&, bool)` -/
def isValidPlay (cardsToPlay : List Card) (topCard : Card)
    (mustPlaySevenOrLower : Bool) : Bool :=
  if cardsToPlay.isEmpty then false
  else if cardsToPlay.length > 1 && !areMultipleCardsValid cardsToPlay then false
  else cardsToPlay.all fun c => canPlayOn c topCard mustPlaySevenOrLower

/-- The three by-reference outputs of `applySpecialCardEffects`. -/
structure EffectsResult where
  discardPile : List Card
  clockwise : Bool
  mustPlaySevenOrLower : Bool
deriving DecidableEq, Repr

/-- The `for (const Card& card : cardsPlayed)` loop inside
`applySpecialCardEffects`. -/
def applyEffectsLoop : List Card → EffectsResult → EffectsResult
  | [], r => r
  | c :: rest, r =>
    let r1 := if isReverseCard c then { r with mustPlaySevenOrLower := true } else r
    let r2 := if isBurnCard c then { r1 with discardPile := [] } else r1
    applyEffectsLoop rest r2

/-- Embeds `void GameRules::applySpecialCardEffects(...)` — resets
`mustPlaySevenOrLower` first, then walks the played cards. -/
def applySpecialCardEffects (cardsPlayed discardPile : List Card)
    (clockwise mustPlaySevenOrLower : Bool) : EffectsResult :=
  applyEffectsLoop cardsPlayed
    { discardPile := discardPile, clockwise := clockwise,
      mustPlaySevenOrLower := (mustPlaySevenOrLower && false) }

end GameRules

/-! ### Game engine (`GameLogic.h`, `GameLogic.cpp`) -/

/-- Embeds `enum class GameState` -/
inductive GameState where
  | WAITING_FOR_PLAYERS | GAME_STARTED | GAME_FINISHED
deriving DecidableEq, Repr

/-- Embeds `struct PlayerHand` -/
structure PlayerHand where
  hand : List Card
  reserves : List Card
  playerId : String
deriving DecidableEq, Repr

/-- Models the C++ exceptions raised by the embedded code. -/
inductive CppError where
  | emptyPile                        -- "Discard pile is empty"
  | emptyDeck                        -- "Cannot deal from empty deck"
  | needTwoPlayers                   -- "Need at least 2 players to start game"
  | invalidCardString (s : String)   -- "Invalid card string: "
  | invalidSuit (c : Char)           -- "Invalid suit: "
  | invalidRank (s : String)         -- "Invalid rank: " / "Rank out of range: "
deriving DecidableEq, Repr

/-- The fields of `GameLogic`. The `playerIndexMap` is maintained in
lock-step with `players` by the source (`addPlayer` / `removePlayer`
rebuild it as position-of-id), so it is modelled as the derived
first-index lookup `getPlayerIndex`. -/
structure GameSt where
  deck : List Card
  discardPile : List Card
  players : List PlayerHand
  currentPlayerIndex : Nat
  gameState : GameState
  clockwise : Bool
  mustPlaySevenOrLower : Bool
deriving DecidableEq, Repr

/-- Index of the first element satisfying the predicate. -/
def findIdxOf? (pred : α → Bool) : List α → Option Nat
  | [] => none
  | a :: l => if pred a then some 0 else (findIdxOf? pred l).map (· + 1)

/-- Embeds `size_t GameLogic::getPlayerIndex(const std::string&) const` —
lookup in `playerIndexMap` (kept in sync with `players` as
position-of-id); `none` models the `SIZE_MAX` miss. -/
def getPlayerIndex (st : GameSt) (playerId : String) : Option Nat :=
  findIdxOf? (fun p => p.playerId == playerId) st.players

/-- Embeds `bool GameLogic::isPlayerTurn(const std::string&) const` -/
def isPlayerTurn (st : GameSt) (playerId : String) : Bool :=
  if st.gameState = .GAME_STARTED then
    match st.players[st.currentPlayerIndex]? with
    | some p => p.playerId == playerId
    | none => false
  else false

/-- Embeds `void GameLogic::moveToNextValidPlayer()` -/
def moveToNextValidPlayer (st : GameSt) : GameSt :=
  if st.players.isEmpty then st
  else if st.clockwise then
    { st with currentPlayerIndex := (st.currentPlayerIndex + 1) % st.players.length }
  else
    { st with currentPlayerIndex :=
        if st.currentPlayerIndex = 0 then st.players.length - 1
        else st.currentPlayerIndex - 1 }

/-- Embeds `void GameLogic::nextTurn()` -/
def nextTurn (st : GameSt) : GameSt := moveToNextValidPlayer st

/-- Embeds `bool GameLogic::hasPlayerWon(const std::string&) const` -/
def hasPlayerWon (st : GameSt) (playerId : String) : Bool :=
  match getPlayerIndex st playerId with
  | none => false
  | some i =>
    match st.players[i]? with
    | some p => p.hand.isEmpty && p.reserves.isEmpty
    | none => false

/-- Embeds `std::string GameLogic::getWinner() const` -/
def getWinner (st : GameSt) : String :=
  if st.gameState ≠ .GAME_FINISHED then ""
  else
    match st.players.find? (fun p => p.hand.isEmpty && p.reserves.isEmpty) with
    | some p => p.playerId
    | none => ""

/-- Embeds `Card GameLogic::getTopDiscardCard() const` — throws
(`CppError.emptyPile`) on an empty pile, else the back of the vector. -/
def getTopDiscardCard (pile : List Card) : Except CppError Card :=
  match pile.getLast? with
  | none => .error .emptyPile
  | some c => .ok c

/-- Body of the `while (hand.size() < 3 && !deck.isEmpty())` loop of
`drawCardsToHand`, with structural fuel: every iteration removes one
deck card, so fuel equal to the deck size never cuts the loop short
(at fuel 0 the deck is already empty). -/
def drawLoopGo : Nat → List Card → List Card → List Card × List Card
  | 0, hand, deck => (hand, deck)
  | fuel + 1, hand, deck =>
    if hand.length < 3 then
      match dealCard deck with
      | none => (hand, deck)
      | some (c, deck') => drawLoopGo fuel (hand ++ [c]) deck'
    else (hand, deck)

/-- The `while (hand.size() < 3 && !deck.isEmpty())` loop of
`drawCardsToHand`, acting on the hand and the deck. -/
def drawLoop (hand deck : List Card) : List Card × List Card :=
  drawLoopGo deck.length hand deck

/-- Embeds `void GameLogic::drawCardsToHand(const std::string&)` -/
def drawCardsToHand (st : GameSt) (playerId : String) : GameSt :=
  match getPlayerIndex st playerId with
  | none => st
  | some i =>
    match st.players[i]? with
    | none => st
    | some p =>
      let r := drawLoop p.hand st.deck
      { st with players := st.players.set i { p with hand := r.1 }, deck := r.2 }

/-- The `std::find_if` / `erase` pair removing the first card equal in
suit and rank from the hand. -/
def removeFirstCard (hand : List Card) (card : Card) : List Card :=
  match hand with
  | [] => []
  | h :: t =>
    if h.suit == card.suit && h.rank == card.rank then t
    else h :: removeFirstCard t card

/-- The validation block of `playCards`:
`if (!discardPile.empty()) { topCard = getTopDiscardCard(); if (!isValidPlay(...)) return false; }`.
`.ok b` is the verdict, `.error` a propagated exception. -/
def playCardsValidate (st : GameSt) (cardsToPlay : List Card) : Except CppError Bool :=
  if !st.discardPile.isEmpty then
    match getTopDiscardCard st.discardPile with
    | .error e => .error e
    | .ok topCard =>
      .ok (GameRules.isValidPlay cardsToPlay topCard st.mustPlaySevenOrLower)
  else .ok true

/-- Embeds `bool GameLogic::playCards(const std::string&, const std::vector<Card>&)` —
`.ok (st', b)` is the C++ `return b` with post-state `st'`; `.error` is a
propagated exception. -/
def playCards (st : GameSt) (playerId : String) (cardsToPlay : List Card) :
    Except CppError (GameSt × Bool) :=
  if !isPlayerTurn st playerId || cardsToPlay.isEmpty then .ok (st, false)
  else
    match getPlayerIndex st playerId with
    | none => .ok (st, false)
    | some i =>
      match st.players[i]? with
      | none => .ok (st, false)
      | some player =>
        -- "Validate cards are in player's hand": one find_if per claimed card
        if !(cardsToPlay.all fun c =>
              player.hand.any fun h => h.suit == c.suit && h.rank == c.rank) then
          .ok (st, false)
        else
          match playCardsValidate st cardsToPlay with
          | .error e => .error e
          | .ok false => .ok (st, false)
          | .ok true =>
            let newHand := cardsToPlay.foldl removeFirstCard player.hand
            let st1 := { st with
              players := st.players.set i { player with hand := newHand },
              discardPile := st.discardPile ++ cardsToPlay }
            let eff := GameRules.applySpecialCardEffects cardsToPlay st1.discardPile
              st1.clockwise st1.mustPlaySevenOrLower
            let st2 := { st1 with
              discardPile := eff.discardPile,
              clockwise := eff.clockwise,
              mustPlaySevenOrLower := eff.mustPlaySevenOrLower }
            let st3 := drawCardsToHand st2 playerId
            if hasPlayerWon st3 playerId then
              .ok ({ st3 with gameState := .GAME_FINISHED }, true)
            else .ok (nextTurn st3, true)

/-- Embeds `bool GameLogic::pickupDiscardPile(const std::string&)` — never
throws, so it returns the pair directly. -/
def pickupDiscardPile (st : GameSt) (playerId : String) : GameSt × Bool :=
  if !isPlayerTurn st playerId || st.discardPile.isEmpty then (st, false)
  else
    match getPlayerIndex st playerId with
    | none => (st, false)
    | some i =>
      match st.players[i]? with
      | none => (st, false)
      | some player =>
        let st1 := { st with
          players := st.players.set i { player with hand := player.hand ++ st.discardPile },
          discardPile := [],
          mustPlaySevenOrLower := false }
        (nextTurn st1, true)

/-- The validity check of `playFromReserve`: any card is valid on an
empty pile, otherwise `isValidPlay` of the single revealed card against
`getTopDiscardCard()`. -/
def reserveValidate (st0 : GameSt) (reserveCard : Card) : Except CppError Bool :=
  if st0.discardPile.isEmpty then .ok true
  else
    match getTopDiscardCard st0.discardPile with
    | .error e => .error e
    | .ok topCard =>
      .ok (GameRules.isValidPlay [reserveCard] topCard st0.mustPlaySevenOrLower)

/-- Embeds `bool GameLogic::playFromReserve(const std::string&)` -/
def playFromReserve (st : GameSt) (playerId : String) :
    Except CppError (GameSt × Bool) :=
  if !isPlayerTurn st playerId then .ok (st, false)
  else
    match getPlayerIndex st playerId with
    | none => .ok (st, false)
    | some i =>
      match st.players[i]? with
      | none => .ok (st, false)
      | some player =>
        if !player.hand.isEmpty then .ok (st, false)
        else if player.reserves.isEmpty then .ok (st, false)
        else
          match player.reserves.getLast? with
          | none => .ok (st, false)  -- unreachable: reserves are non-empty
          | some reserveCard =>
            let player1 := { player with reserves := player.reserves.dropLast }
            let st0 := { st with players := st.players.set i player1 }
            match reserveValidate st0 reserveCard with
            | .error e => .error e
            | .ok true =>
              let pile1 := st0.discardPile ++ [reserveCard]
              let eff := GameRules.applySpecialCardEffects [reserveCard] pile1
                st0.clockwise st0.mustPlaySevenOrLower
              let st1 := { st0 with
                discardPile := eff.discardPile,
                clockwise := eff.clockwise,
                mustPlaySevenOrLower := eff.mustPlaySevenOrLower }
              if hasPlayerWon st1 playerId then
                .ok ({ st1 with gameState := .GAME_FINISHED }, true)
              else .ok (nextTurn st1, true)
            | .ok false =>
              let player2 := { player1 with
                hand := player1.hand ++ [reserveCard] ++ st0.discardPile }
              let st2 := { st0 with
                players := st0.players.set i player2,
                discardPile := [], mustPlaySevenOrLower := false }
              .ok (nextTurn st2, true)

/-- The `GameLogic()` constructor state (the constructor's `CardDeck()`
already calls `initializeStandardDeck`). -/
def initialGameSt : GameSt :=
  { deck := initializeStandardDeck, discardPile := [], players := [],
    currentPlayerIndex := 0, gameState := .WAITING_FOR_PLAYERS,
    clockwise := true, mustPlaySevenOrLower := false }

/-- Embeds `bool GameLogic::addPlayer(const std::string&)` -/
def addPlayer (st : GameSt) (playerId : String) : GameSt × Bool :=
  if st.gameState ≠ .WAITING_FOR_PLAYERS then (st, false)
  else if (getPlayerIndex st playerId).isSome then (st, false)
  else ({ st with players := st.players ++ [⟨[], [], playerId⟩] }, true)

/-- The `if (!deck.isEmpty()) x.push_back(deck.dealCard())` loop run `n`
times; returns the dealt cards in deal order and the remaining deck. -/
def dealUpTo (n : Nat) (deck : List Card) : List Card × List Card :=
  match n with
  | 0 => ([], deck)
  | k + 1 =>
    match dealCard deck with
    | none => ([], deck)
    | some (c, deck') =>
      let r := dealUpTo k deck'
      (c :: r.1, r.2)

/-- The per-player loop of `dealInitialCards`: clear hand and reserves,
deal 3 reserves then 3 hand cards. -/
def dealToPlayers : List PlayerHand → List Card → List PlayerHand × List Card
  | [], deck => ([], deck)
  | p :: rest, deck =>
    let r1 := dealUpTo 3 deck
    let r2 := dealUpTo 3 r1.2
    let r3 := dealToPlayers rest r2.2
    ({ p with hand := r2.1, reserves := r1.1 } :: r3.1, r3.2)

/-- Embeds `void GameLogic::dealInitialCards()` -/
def dealInitialCards (st : GameSt) : GameSt :=
  let r := dealToPlayers st.players st.deck
  match dealCard r.2 with
  | none => { st with players := r.1, deck := r.2 }
  | some (c, deck'') =>
    { st with
      players := r.1, deck := deck'',
      discardPile := st.discardPile ++ [c] }

/-- Embeds `void GameLogic::startGame()`, with the outcome of `deck.shuffle()`
passed in as `shuffled` (an arbitrary permutation of
`initializeStandardDeck`). -/
def startGameWith (st : GameSt) (shuffled : List Card) : Except CppError GameSt :=
  if st.players.length < 2 then .error .needTwoPlayers
  else
    .ok (dealInitialCards
      { st with
        gameState := .GAME_STARTED, currentPlayerIndex := 0,
        clockwise := true, mustPlaySevenOrLower := false,
        deck := shuffled, discardPile := [] })

/-- A fresh `GameLogic` after `addPlayer` for each id in order. -/
def mkWaiting (ids : List String) : GameSt :=
  ids.foldl (fun s pid => (addPlayer s pid).1) initialGameSt

/-! ### Remaining `GameLogic` getters used by `GameManager` -/

/-- Embeds `std::vector<Card> GameLogic::getPlayerHand(...) const` -/
def getPlayerHand (st : GameSt) (playerId : String) : List Card :=
  match getPlayerIndex st playerId with
  | none => []
  | some i =>
    match st.players[i]? with
    | none => []
    | some p => p.hand

/-- Embeds `std::vector<Card> GameLogic::getPlayerReserves(...) const` -/
def getPlayerReserves (st : GameSt) (playerId : String) : List Card :=
  match getPlayerIndex st playerId with
  | none => []
  | some i =>
    match st.players[i]? with
    | none => []
    | some p => p.reserves

/-- Embeds `size_t GameLogic::getPlayerHandSize(...) const` -/
def getPlayerHandSize (st : GameSt) (playerId : String) : Nat :=
  match getPlayerIndex st playerId with
  | none => 0
  | some i =>
    match st.players[i]? with
    | none => 0
    | some p => p.hand.length

/-- Embeds `size_t GameLogic::getPlayerReserveSize(...) const` -/
def getPlayerReserveSize (st : GameSt) (playerId : String) : Nat :=
  match getPlayerIndex st playerId with
  | none => 0
  | some i =>
    match st.players[i]? with
    | none => 0
    | some p => p.reserves.length

/-- Embeds `std::vector<Card> GameLogic::getDiscardPile() const` -/
def getDiscardPile (st : GameSt) : List Card := st.discardPile

/-- Embeds `size_t GameLogic::getDeckSize() const` -/
def getDeckSize (st : GameSt) : Nat := st.deck.length

/-- Embeds `std::string GameLogic::getCurrentPlayer() const` -/
def getCurrentPlayer (st : GameSt) : String :=
  match st.players[st.currentPlayerIndex]? with
  | none => ""
  | some p => p.playerId

/-- Embeds `bool GameLogic::getMustPlaySevenOrLower() const` -/
def getMustPlaySevenOrLower (st : GameSt) : Bool := st.mustPlaySevenOrLower

/-! ### Request-level layer (`GameManager.cpp`, `Room.h`)

The `RoomManager::withRoom` lookup is out of scope here: each function
takes the room's `GameLogic` state `st` and the room's `active` flag
directly (a missing room behaves like an inactive one for the claims
formalised below). -/

/-- Character predicate used by `std::stoi` / `std::isdigit`. -/
def isCppDigit (c : Char) : Bool := '0' ≤ c && c ≤ '9'

/-- Character predicate used by `std::stoi` for leading whitespace. -/
def isCppSpace (c : Char) : Bool :=
  c = ' ' || c = '\t' || c = '\n' || c = '\r' || c = '\x0b' || c = '\x0c'

/-- Value of a non-empty digit run. -/
def digitsToNat (ds : List Char) : Nat :=
  ds.foldl (fun n c => 10 * n + (c.toNat - '0'.toNat)) 0

/-- Embeds `std::stoi`: skip leading whitespace, optional sign, then a
non-empty digit run (trailing junk is ignored); `none` models the
`std::invalid_argument` thrown when no digits are found.  Overflow
(`std::out_of_range`) is not modelled: the result is an unbounded `Int`,
and every caller range-checks the result. -/
def cppStoi (s : String) : Option Int :=
  let cs := s.data.dropWhile isCppSpace
  match cs with
  | '-' :: rest =>
    let ds := rest.takeWhile isCppDigit
    if ds.isEmpty then none else some (-(digitsToNat ds : Int))
  | '+' :: rest =>
    let ds := rest.takeWhile isCppDigit
    if ds.isEmpty then none else some (digitsToNat ds : Int)
  | _ =>
    let ds := cs.takeWhile isCppDigit
    if ds.isEmpty then none else some (digitsToNat ds : Int)

/-- Embeds `Room::isGameActive()` (`active` is the room's flag). -/
def roomIsGameActive (active : Bool) (st : GameSt) : Bool :=
  active && st.gameState == .GAME_STARTED

namespace GameManager

/-- Embeds `Card GameManager::parseCardFromString(const std::string&)` —
all `throw` sites become `.error`. -/
def parseCardFromString (cardStr : String) : Except CppError Card :=
  let cs := cardStr.data
  if cs.length < 2 then .error (.invalidCardString cardStr)
  else
    match cs.getLast? with
    | none => .error (.invalidCardString cardStr)
    | some suitChar =>
      let suit? : Option Suit :=
        if suitChar = 'H' then some .HEARTS
        else if suitChar = 'D' then some .DIAMONDS
        else if suitChar = 'C' then some .CLUBS
        else if suitChar = 'S' then some .SPADES
        else none
      match suit? with
      | none => .error (.invalidSuit suitChar)
      | some suit =>
        let rankStr : String := ⟨cs.dropLast⟩
        if rankStr = "A" then .ok ⟨suit, Rank.ACE⟩
        else if rankStr = "J" then .ok ⟨suit, Rank.JACK⟩
        else if rankStr = "Q" then .ok ⟨suit, Rank.QUEEN⟩
        else if rankStr = "K" then .ok ⟨suit, Rank.KING⟩
        else
          match cppStoi rankStr with
          | none => .error (.invalidRank rankStr)
          | some v =>
            if v < 1 || v > 13 then .error (.invalidRank rankStr)
            else .ok ⟨suit, v.toNat⟩

/-- Embeds `std::vector<std::string> GameManager::convertCardsToStrings(...)` -/
def convertCardsToStrings (cards : List Card) : List String :=
  cards.map Card.toString

/-- The card-string conversion loop of `GameManager::playCards`:
`.ok none` models the `return false` taken when the parsed card is the
ace-of-hearts sentinel but the string was not `"AH"`. -/
def convertCardStrings : List String → Except CppError (Option (List Card))
  | [] => .ok (some [])
  | s :: rest =>
    match parseCardFromString s with
    | .error e => .error e
    | .ok card =>
      if card.rank == Rank.ACE && card.suit == Suit.HEARTS && s ≠ "AH" then
        .ok none
      else
        match convertCardStrings rest with
        | .error e => .error e
        | .ok none => .ok none
        | .ok (some cs) => .ok (some (card :: cs))

/-- Embeds `bool GameManager::playCards(...)` — the body of the
`withRoom` lambda; `active` is `room->active`. -/
def playCardsGM (active : Bool) (st : GameSt) (player_name : String)
    (card_strings : List String) : Except CppError (GameSt × Bool) :=
  if !roomIsGameActive active st then .ok (st, false)
  else
    match convertCardStrings card_strings with
    | .error e => .error e
    | .ok none => .ok (st, false)
    | .ok (some cardObjects) => playCards st player_name cardObjects

/-- Embeds `bool GameManager::pickupPile(...)`. -/
def pickupPileGM (active : Bool) (st : GameSt) (player_name : String) :
    GameSt × Bool :=
  if !roomIsGameActive active st then (st, false)
  else pickupDiscardPile st player_name

/-- Embeds `struct GameStateData` (defaults from its constructor and the
default-constructed members). -/
structure GameStateData where
  hand_cards : List String := []
  reserve_count : Nat := 0
  current_player : String := ""
  top_discard_card : String := ""
  other_players_info : List String := []
  must_play_seven_or_lower : Bool := false
  valid : Bool := false
  error_message : String := ""
  deck_size : Nat := 0
  discard_pile_size : Nat := 0
deriving DecidableEq, Repr

/-- The top-card block of `getGameStateForPlayer`: the textual top
discard card, or the placeholder `"1S"` for an empty pile
("Empty pile - use placeholder card (1S)"). -/
def snapshotTopCard (st : GameSt) : Except CppError String :=
  if !(getDiscardPile st).isEmpty then
    match getTopDiscardCard (getDiscardPile st) with
    | .error e => .error e
    | .ok c => .ok c.toString
  else .ok "1S"

/-- Embeds `GameStateData GameManager::getGameStateForPlayer(...)` —
the body of the `withRoom` lambda; `roomPlayers` is `room->players`. -/
def getGameStateForPlayer (active : Bool) (st : GameSt)
    (roomPlayers : List String) (player_name : String) :
    Except CppError GameStateData :=
  if !roomIsGameActive active st then
    .ok { error_message := "Game not active" }
  else
    match snapshotTopCard st with
    | .error e => .error e
    | .ok top_discard_card =>
      .ok {
        hand_cards := convertCardsToStrings (getPlayerHand st player_name),
        reserve_count := getPlayerReserveSize st player_name,
        current_player := getCurrentPlayer st,
        top_discard_card := top_discard_card,
        other_players_info :=
          (roomPlayers.filter (fun other => other ≠ player_name)).map fun other =>
            other ++ ":" ++ ToString.toString (getPlayerHandSize st other) ++
              ":" ++ ToString.toString (getPlayerReserveSize st other),
        must_play_seven_or_lower := getMustPlaySevenOrLower st,
        valid := true,
        deck_size := getDeckSize st,
        discard_pile_size := (getDiscardPile st).length }

end GameManager

/-! ### Wire codec (`ProtocolMessage.h`, `ProtocolMessage.cpp`) -/

/-- Embeds `ProtocolMessage::FIELD_CODE_MAP` (verbose name → compact
code); a `std::map` queried only through `find`, so an association list
suffices. -/
def FIELD_CODE_MAP : List (String × String) :=
  [("hand", "h"), ("reserves", "r"), ("opponent_hand", "oh"),
   ("opponent_reserves", "or"), ("opponent_name", "on"), ("top_card", "tc"),
   ("discard_pile_size", "dp"), ("deck_size", "dk"), ("must_play_low", "ml"),
   ("your_turn", "yt"), ("current_player", "cp"), ("status", "st"),
   ("name", "nm"), ("error", "er"), ("result", "rs"), ("cards", "cd"),
   ("winner", "wn"), ("reconnected_player", "rp"), ("disconnected_player", "dc"),
   ("broadcast_type", "bt"), ("joined_player", "jp"), ("players", "pl"),
   ("player_count", "pc"), ("room_full", "rf"), ("disconnect", "disc"),
   ("message", "msg"), ("reason", "rsn"),
   ("temporarily_disconnected", "temp"), ("reconnected", "recon"),
   ("success", "ok"), ("game_over", "end"), ("started", "start"),
   ("left", "lft"), ("timed_out", "tout"), ("invalid_message", "inv"),
   ("play_success", "pok"), ("pickup_success", "uok"),
   ("opponent_disconnect", "opdc"), ("room_notification", "rnotif")]

/-- Embeds `ProtocolMessage::REVERSE_FIELD_CODE_MAP` (compact code →
verbose name). -/
def REVERSE_FIELD_CODE_MAP : List (String × String) :=
  [("h", "hand"), ("r", "reserves"), ("oh", "opponent_hand"),
   ("or", "opponent_reserves"), ("on", "opponent_name"), ("tc", "top_card"),
   ("dp", "discard_pile_size"), ("dk", "deck_size"), ("ml", "must_play_low"),
   ("yt", "your_turn"), ("cp", "current_player"), ("st", "status"),
   ("nm", "name"), ("er", "error"), ("rs", "result"), ("cd", "cards"),
   ("wn", "winner"), ("rp", "reconnected_player"), ("dc", "disconnected_player"),
   ("bt", "broadcast_type"), ("jp", "joined_player"), ("pl", "players"),
   ("pc", "player_count"), ("rf", "room_full"), ("disc", "disconnect"),
   ("msg", "message"), ("rsn", "reason"),
   ("temp", "temporarily_disconnected"), ("recon", "reconnected"),
   ("ok", "success"), ("end", "game_over"), ("start", "started"),
   ("lft", "left"), ("tout", "timed_out"), ("inv", "invalid_message"),
   ("pok", "play_success"), ("uok", "pickup_success"),
   ("opdc", "opponent_disconnect"), ("rnotif", "room_notification")]

/-- Embeds `std::string ProtocolMessage::getCompactCode(...)`. -/
def getCompactCode (field_name : String) : String :=
  match FIELD_CODE_MAP.lookup field_name with
  | some code => code
  | none => field_name

/-- Embeds `std::string ProtocolMessage::getFullFieldName(...)`. -/
def getFullFieldName (compact_code : String) : String :=
  match REVERSE_FIELD_CODE_MAP.lookup compact_code with
  | some full => full
  | none => compact_code

/-- Lexicographic char-list comparison, `std::string::operator<`. -/
def lexLt : List Char → List Char → Bool
  | [], [] => false
  | [], _ :: _ => true
  | _ :: _, [] => false
  | a :: as, b :: bs => if a < b then true else if b < a then false else lexLt as bs

/-- Embeds `std::string` ordering (the `std::map<std::string, …>`
comparator). -/
def strLt (s t : String) : Bool := lexLt s.data t.data

/-- Embeds `std::map::operator[]` assignment on the key-sorted
association list (replace an existing binding, else sorted insert). -/
def mapInsert (k v : String) : List (String × String) → List (String × String)
  | [] => [(k, v)]
  | (k', v') :: rest =>
    if strLt k k' then (k, v) :: (k', v') :: rest
    else if k = k' then (k, v) :: rest
    else (k', v') :: mapInsert k v rest

/-- Embeds `struct ProtocolMessage`; the `MessageType type` field keeps
its integer code (C++ `static_cast`s arbitrary ints into the enum), and
`data` is the `std::map<std::string, std::string>` as a key-sorted
association list. The delivery metadata (`should_broadcast_to_room`)
is not needed by the claims below. -/
structure ProtocolMessage where
  type : Int
  player_id : String := ""
  room_id : String := ""
  data : List (String × String) := []
deriving DecidableEq, Repr

/-- Embeds `void ProtocolMessage::setData(...)`. -/
def ProtocolMessage.setData (msg : ProtocolMessage) (key value : String) :
    ProtocolMessage :=
  { msg with data := mapInsert key value msg.data }

/-- Embeds `std::string ProtocolMessage::getData(...)` (default `""`). -/
def ProtocolMessage.getData (msg : ProtocolMessage) (key : String)
    (default_value : String := "") : String :=
  match msg.data.lookup key with
  | some v => v
  | none => default_value

/-- Embeds `bool ProtocolMessage::hasData(...)`. -/
def ProtocolMessage.hasData (msg : ProtocolMessage) (key : String) : Bool :=
  (msg.data.lookup key).isSome

/-! Integer codes of `enum class MessageType` (`MessageType.h`). -/
namespace MessageType
def CONNECT : Int := 0
def DISCONNECT : Int := 1
def JOIN_ROOM : Int := 2
def LEAVE_ROOM : Int := 3
def PING : Int := 4
def START_GAME : Int := 5
def RECONNECT : Int := 6
def PLAY_CARDS : Int := 7
def PICKUP_PILE : Int := 8
def CONNECTED : Int := 100
def ROOM_JOINED : Int := 101
def ROOM_LEFT : Int := 102
def ERROR_MSG : Int := 103
def PONG : Int := 104
def GAME_STARTED : Int := 105
def GAME_STATE : Int := 106
def PLAYER_DISCONNECTED : Int := 107
def GAME_PAUSED : Int := 108
def PLAYER_RECONNECTED : Int := 109
def GAME_RESUMED : Int := 110
def TURN_RESULT : Int := 111
def GAME_OVER : Int := 112
end MessageType

/-- Serialization `ss << type << "|" << player_id << "|" << room_id`
followed by one `|key=value` per data entry (in `std::map` key order),
as the list of pipe-separated fields. -/
def serializeTokens (msg : ProtocolMessage) : List String :=
  [ToString.toString msg.type, msg.player_id, msg.room_id] ++
    msg.data.map fun kv => getCompactCode kv.1 ++ "=" ++ getCompactCode kv.2

/-- Pipe-joining of the frame fields done by the `stringstream`. -/
def joinPipe : List String → String
  | [] => ""
  | [t] => t
  | t :: ts => t ++ "|" ++ joinPipe ts

/-- Embeds `std::string ProtocolMessage::serialize() const`. -/
def ProtocolMessage.serialize (msg : ProtocolMessage) : String :=
  joinPipe (serializeTokens msg)

/-- Splits a char list at every separator (one list element per
`std::getline` token before end-of-stream handling): the pair is the
first token and the remaining tokens. -/
def splitChAux (sep : Char) : List Char → List Char × List (List Char)
  | [] => ([], [])
  | c :: rest =>
    let (t, ts) := splitChAux sep rest
    if c = sep then ([], t :: ts) else (c :: t, ts)

/-- Embeds the `while (std::getline(iss, token, sep))` tokenization: an
empty stream yields no token, and a trailing separator yields no final
empty token (`getline` fails having extracted nothing). -/
def cppGetlineSplit (sep : Char) (s : String) : List String :=
  if s.data.isEmpty then []
  else
    let (t, ts) := splitChAux sep s.data
    let tokens := (t :: ts).map fun cs => String.mk cs
    if s.data.getLast? = some sep then tokens.dropLast else tokens

/-- Embeds `token.find(c)` with the two `substr` calls: the parts before
and after the first occurrence, `none` when absent (`npos`). -/
def splitFirstCh (sep : Char) : List Char → Option (List Char × List Char)
  | [] => none
  | c :: rest =>
    if c = sep then some ([], rest)
    else
      match splitFirstCh sep rest with
      | none => none
      | some (k, v) => some (c :: k, v)

/-- Embeds the manual `is_numeric` scan in `ProtocolMessage::parse`
(optional leading minus when longer than one char, then all digits). -/
def valueIsNumeric (value : String) : Bool :=
  let startIdx : Nat :=
    if value.data.head? = some '-' && value.data.length > 1 then 1 else 0
  (value.data.drop startIdx).all isCppDigit

/-- Value handling in `ProtocolMessage::parse`: compact-code
substitution applied only to non-empty, non-numeric values. -/
def parseDataValue (value : String) : String :=
  if value.data.isEmpty then value
  else if valueIsNumeric value then value
  else getFullFieldName value

/-- One iteration of the key-value loop of `ProtocolMessage::parse`. -/
def parseKVInto (data : List (String × String)) (token : String) :
    List (String × String) :=
  match splitFirstCh '=' token.data with
  | none => data
  | some (k, v) =>
    mapInsert (getFullFieldName (String.mk k)) (parseDataValue (String.mk v)) data

/-- Embeds `ProtocolMessage ProtocolMessage::parse(const std::string&)`.
The default-constructed message has `type = MessageType::PING`; the
`catch` branch (only `std::stoi` on the type token can throw) yields an
`ERROR_MSG` with `data["error"]`. -/
def ProtocolMessage.parse (message : String) : ProtocolMessage :=
  let tokens := cppGetlineSplit '|' message
  let msg0 : ProtocolMessage := { type := MessageType.PING }
  match tokens with
  | [] => msg0
  | t0 :: rest0 =>
    match cppStoi t0 with
    | none =>
      { msg0 with type := MessageType.ERROR_MSG,
                  data := mapInsert "error" "Invalid message format" msg0.data }
    | some ty =>
      let msg1 := { msg0 with type := ty }
      match rest0 with
      | [] => msg1
      | t1 :: rest1 =>
        let msg2 := { msg1 with player_id := t1 }
        match rest1 with
        | [] => msg2
        | t2 :: rest2 =>
          let msg3 := { msg2 with room_id := t2 }
          { msg3 with data := rest2.foldl parseKVInto msg3.data }

/-! ### Router skeleton (`MessageValidator.cpp`, `MessageParser.cpp`,
`ProtocolHelper.cpp`, `MessageHandler.cpp`) -/

/-- Embeds `bool MessageValidator::isValidFormat(const std::string&)`. -/
def isValidFormat (raw_message : String) : Bool :=
  if raw_message.data.isEmpty then false
  else
    match splitFirstCh '|' raw_message.data with
    | none => false
    | some (pre, _) =>
      match cppStoi (String.mk pre) with
      | none => false
      | some type_code => !(type_code < 0 || type_code > 200)

/-- Embeds `bool MessageValidator::isValidMessageType(int)` — the
switch over every `MessageType` enumerator. -/
def isValidMessageType (type_code : Int) : Bool :=
  type_code == MessageType.CONNECT || type_code == MessageType.DISCONNECT ||
  type_code == MessageType.JOIN_ROOM || type_code == MessageType.LEAVE_ROOM ||
  type_code == MessageType.PING || type_code == MessageType.START_GAME ||
  type_code == MessageType.RECONNECT || type_code == MessageType.PLAY_CARDS ||
  type_code == MessageType.PICKUP_PILE || type_code == MessageType.CONNECTED ||
  type_code == MessageType.ROOM_JOINED || type_code == MessageType.ROOM_LEFT ||
  type_code == MessageType.ERROR_MSG || type_code == MessageType.PONG ||
  type_code == MessageType.GAME_STARTED || type_code == MessageType.GAME_STATE ||
  type_code == MessageType.PLAYER_DISCONNECTED || type_code == MessageType.GAME_PAUSED ||
  type_code == MessageType.PLAYER_RECONNECTED || type_code == MessageType.GAME_RESUMED ||
  type_code == MessageType.TURN_RESULT || type_code == MessageType.GAME_OVER

/-- The client-to-server request codes of the spec's protocol table
(`CONNECT, JOIN_ROOM, LEAVE_ROOM, PING, START_GAME, RECONNECT,
PLAY_CARDS, PICKUP_PILE`). -/
def clientRequestCodes : List Int :=
  [MessageType.CONNECT, MessageType.JOIN_ROOM, MessageType.LEAVE_ROOM,
   MessageType.PING, MessageType.START_GAME, MessageType.RECONNECT,
   MessageType.PLAY_CARDS, MessageType.PICKUP_PILE]

/-- Embeds `bool MessageParser::requiresActivePlayer(MessageType)`. -/
def requiresActivePlayer (type_code : Int) : Bool :=
  if type_code == MessageType.RECONNECT || type_code == MessageType.CONNECT
  then false else true

/-- Embeds `ProtocolMessage ProtocolHelper::createErrorResponse(...)`. -/
def createErrorResponse (error_message : String) : ProtocolMessage :=
  ({ type := MessageType.ERROR_MSG } : ProtocolMessage).setData "error" error_message

/-- The request handler `MessageHandler::processMessage` dispatches to. -/
inductive HandlerTag where
  | connect | reconnect | ping | joinRoom | leaveRoom | startGame
  | playCards | pickupPile
deriving DecidableEq, Repr

/-- Outcome of the routing part of `processMessage`: either a reply
batch produced by the router itself, or a dispatch into one of the
request handlers (whose own replies are beyond the routing layer). -/
inductive RouteResult where
  | reply (msgs : List ProtocolMessage)
  | dispatch (tag : HandlerTag) (msg : ProtocolMessage) (player_name : String)
deriving DecidableEq, Repr

/-- Embeds the validation-and-dispatch logic of
`MessageHandler::processMessage`; `socketPlayer` is
`playerManager->getPlayerIdFromSocket(client_socket)` (the empty string
when the socket has no connected player). -/
def processRoute (raw_message : String) (socketPlayer : String) : RouteResult :=
  if !isValidFormat raw_message then
    .reply [({ type := MessageType.ERROR_MSG } : ProtocolMessage).setData "disconnect" "true"]
  else
    let msg := ProtocolMessage.parse raw_message
    if !isValidMessageType msg.type then
      .reply [({ type := MessageType.ERROR_MSG } : ProtocolMessage).setData "disconnect" "true"]
    else
      let player_name := if requiresActivePlayer msg.type then socketPlayer else ""
      if requiresActivePlayer msg.type && player_name.isEmpty then
        .reply [createErrorResponse "Must connect first"]
      else
        if msg.type == MessageType.CONNECT then .dispatch .connect msg player_name
        else if msg.type == MessageType.RECONNECT then .dispatch .reconnect msg player_name
        else if msg.type == MessageType.PING then .dispatch .ping msg player_name
        else if msg.type == MessageType.JOIN_ROOM then .dispatch .joinRoom msg player_name
        else if msg.type == MessageType.LEAVE_ROOM then .dispatch .leaveRoom msg player_name
        else if msg.type == MessageType.START_GAME then .dispatch .startGame msg player_name
        else if msg.type == MessageType.PLAY_CARDS then .dispatch .playCards msg player_name
        else if msg.type == MessageType.PICKUP_PILE then .dispatch .pickupPile msg player_name
        else .reply [createErrorResponse "Unknown message type"]

/-! ### Statement-side definitions for the claims -/

/-- A player holding no hand card and no reserve card. -/
def BothEmpty (p : PlayerHand) : Prop := p.hand = [] ∧ p.reserves = []

/-- One engine operation of the claim: a `playCards`, `playFromReserve`
or `pickupDiscardPile` call by any requester with any card list
(accepted or rejected), that did not throw. -/
inductive Step : GameSt → GameSt → Prop
  | play (pid : String) (cs : List Card) {s s' : GameSt} {b : Bool} :
      playCards s pid cs = .ok (s', b) → Step s s'
  | reserve (pid : String) {s s' : GameSt} {b : Bool} :
      playFromReserve s pid = .ok (s', b) → Step s s'
  | pickup (pid : String) {s s' : GameSt} {b : Bool} :
      pickupDiscardPile s pid = (s', b) → Step s s'

/-- Game states reachable from a two-player `startGame` (any player
ids, any shuffle outcome) by a sequence of engine operations. -/
def ReachableTwo (s : GameSt) : Prop :=
  ∃ ids shuffled s0, ids.length = 2 ∧
    shuffled.Perm initializeStandardDeck ∧
    startGameWith (mkWaiting ids) shuffled = .ok s0 ∧
    Relation.ReflTransGen Step s0 s

/-- Inductive engine invariant: the phase is past `WAITING`, no player
of a running game is out of cards, and at most one player value is out
of cards at all. -/
def EngineInv (s : GameSt) : Prop :=
  (s.gameState = .GAME_STARTED ∨ s.gameState = .GAME_FINISHED) ∧
  (s.gameState = .GAME_STARTED → ∀ p ∈ s.players, ¬ BothEmpty p) ∧
  (∀ p ∈ s.players, ∀ q ∈ s.players, BothEmpty p → BothEmpty q → p = q)

/-- Strict sortedness of the key column (each key `strLt`-below every
later one), the `std::map` representation invariant. -/
def keysPairwiseSorted : List String → Bool
  | [] => true
  | k :: rest => rest.all (fun k' => strLt k k') && keysPairwiseSorted rest

/-- Keys of the verbose-to-compact table. -/
def fcmKeys : List String := FIELD_CODE_MAP.map Prod.fst

/-- Keys of the compact-to-verbose table. -/
def rfcmKeys : List String := REVERSE_FIELD_CODE_MAP.map Prod.fst

/-- Well-formedness of a data-map key for the round-trip claim: no
frame or key-value delimiter, and not a bare compact code (it is either
a verbose name of the table or outside the reverse table). -/
def wireSafeKey (k : String) : Bool :=
  !k.data.contains '|' && !k.data.contains '=' &&
    (fcmKeys.contains k || !rfcmKeys.contains k)

/-- Well-formedness of a data-map value for the round-trip claim: no
frame delimiter, and either a verbose name of the table, or numeric, or
outside the reverse table (not a bare compact code). -/
def wireSafeValue (v : String) : Bool :=
  !v.data.contains '|' &&
    (fcmKeys.contains v || valueIsNumeric v || !rfcmKeys.contains v)

/-- Well-formedness of a whole `ProtocolMessage` for the round-trip
claim: a sorted data map of wire-safe entries, pipe-free ids, and a
genuine `MessageType` code. -/
def wellFormedMsg (msg : ProtocolMessage) : Bool :=
  keysPairwiseSorted (msg.data.map Prod.fst) &&
  msg.data.all (fun kv => wireSafeKey kv.1 && wireSafeValue kv.2) &&
  !msg.player_id.data.contains '|' && !msg.room_id.data.contains '|' &&
  isValidMessageType msg.type

/-- The reply batch `processMessage` sends on an invalid-format or
invalid-type frame: a single ERROR message carrying the
`disconnect=true` teardown marker. -/
def disconnectReply : RouteResult :=
  .reply [({ type := MessageType.ERROR_MSG } : ProtocolMessage).setData "disconnect" "true"]

/-- Char-level counterpart of `joinPipe`, for the codec lemmas. -/
def joinChars (sep : Char) : List (List Char) → List Char
  | [] => []
  | [t] => t
  | t :: ts => t ++ sep :: joinChars sep ts

/-! ### Concrete states and messages used by witnesses and
counterexamples -/

/-- The game state right after a two-player `START_GAME` with the
unshuffled deck (one possible shuffle outcome). -/
def c1StartState : GameSt :=
  match startGameWith (mkWaiting ["Alice", "Bob"]) initializeStandardDeck with
  | .ok s => s
  | .error _ => initialGameSt

/-- A running two-player game where Alice (to move) holds a single five
of hearts and the discard pile is empty (as after a pickup). -/
def c2State : GameSt :=
  { deck := [], discardPile := [],
    players := [⟨[⟨.HEARTS, 5⟩], [⟨.DIAMONDS, Rank.KING⟩], "Alice"⟩,
                ⟨[⟨.CLUBS, 9⟩], [⟨.SPADES, 3⟩], "Bob"⟩],
    currentPlayerIndex := 0, gameState := .GAME_STARTED,
    clockwise := true, mustPlaySevenOrLower := false }

/-- The state produced by asking to play the five of hearts twice. -/
def c2After : GameSt :=
  match playCards c2State "Alice" [⟨.HEARTS, 5⟩, ⟨.HEARTS, 5⟩] with
  | .ok (s, _) => s
  | .error _ => c2State

/-- A running two-player game where Alice (to move) has an empty hand,
one reserve card (a king, valid on the nine topping the pile). -/
def c3State : GameSt :=
  { deck := [], discardPile := [⟨.DIAMONDS, 9⟩],
    players := [⟨[], [⟨.CLUBS, Rank.KING⟩], "Alice"⟩,
                ⟨[⟨.CLUBS, 9⟩], [⟨.SPADES, 3⟩], "Bob"⟩],
    currentPlayerIndex := 0, gameState := .GAME_STARTED,
    clockwise := true, mustPlaySevenOrLower := false }

/-- The state the dead code `GameLogic::playFromReserve` would produce
on `c3State`. -/
def c3ReserveAfter : GameSt :=
  match playFromReserve c3State "Alice" with
  | .ok (s, _) => s
  | .error _ => c3State

/-- A running two-player game where Alice (to move) holds a ten over a
non-empty discard pile. -/
def c5State : GameSt :=
  { deck := [], discardPile := [⟨.DIAMONDS, 3⟩],
    players := [⟨[⟨.SPADES, Rank.TEN⟩], [⟨.DIAMONDS, Rank.KING⟩], "Alice"⟩,
                ⟨[⟨.CLUBS, 9⟩], [⟨.SPADES, 3⟩], "Bob"⟩],
    currentPlayerIndex := 0, gameState := .GAME_STARTED,
    clockwise := true, mustPlaySevenOrLower := false }

/-- The state produced by Alice playing the ten of spades. -/
def c5After : GameSt :=
  match playCards c5State "Alice" [⟨.SPADES, Rank.TEN⟩] with
  | .ok (s, _) => s
  | .error _ => c5State

/-- The game state right after a three-player `START_GAME` with the
unshuffled deck (one possible shuffle outcome). -/
def c6ThreeState : GameSt :=
  match startGameWith (mkWaiting ["Alice", "Bob", "Carol"]) initializeStandardDeck with
  | .ok s => s
  | .error _ => initialGameSt

/-- A short two-player game from `c1StartState`: Alice plays the two of
clubs (empty pile, any card valid). -/
def c6s1 : GameSt :=
  match playCards c1StartState "Alice" [⟨.CLUBS, Rank.TWO⟩] with
  | .ok (s, _) => s
  | .error _ => c1StartState

/-- … then Bob (empty hand) plays his last-dealt reserve, a wild two. -/
def c6s2 : GameSt :=
  match playFromReserve c6s1 "Bob" with
  | .ok (s, _) => s
  | .error _ => c6s1

/-- … then Alice plays her ace of diamonds on the wild two. -/
def c6s3 : GameSt :=
  match playCards c6s2 "Alice" [⟨.DIAMONDS, Rank.ACE⟩] with
  | .ok (s, _) => s
  | .error _ => c6s2

/-- … then Bob plays his remaining reserve ace on Alice's ace and wins:
his hand and reserves are now both empty. -/
def c6s4 : GameSt :=
  match playFromReserve c6s3 "Bob" with
  | .ok (s, _) => s
  | .error _ => c6s3

/-- A running two-player game with a non-empty pile, Alice to move and
the seven-or-lower constraint set. -/
def c8State : GameSt :=
  { deck := [⟨.HEARTS, 4⟩], discardPile := [⟨.DIAMONDS, 9⟩, ⟨.HEARTS, 7⟩],
    players := [⟨[⟨.HEARTS, 5⟩], [⟨.DIAMONDS, Rank.KING⟩], "Alice"⟩,
                ⟨[⟨.CLUBS, 9⟩], [⟨.SPADES, 3⟩], "Bob"⟩],
    currentPlayerIndex := 0, gameState := .GAME_STARTED,
    clockwise := true, mustPlaySevenOrLower := true }

/-- The state produced by Alice picking up the pile in `c8State`. -/
def c8After : GameSt := (pickupDiscardPile c8State "Alice").1

/-- A message whose data value is the bare compact code `"h"` (for
example a player literally named `h`): structurally a perfectly valid
map, but not fixed by the codec round trip. -/
def c7BadMsg : ProtocolMessage :=
  { type := MessageType.CONNECT, data := [("name", "h")] }

/-- A well-formed game-state message exercising the round trip. -/
def c7GoodMsg : ProtocolMessage :=
  { type := MessageType.GAME_STATE, player_id := "Alice", room_id := "ROOM_1",
    data := [("deck_size", "43"), ("hand", "5H,9C"), ("status", "success")] }

/-! ## Helper lemmas -/

theorem dealCard_eq_none {d : List Card} : dealCard d = none ↔ d = [] := by
  unfold dealCard
  rcases h : d.getLast? with _ | c
  · simp [List.getLast?_eq_none_iff.mp h]
  · simp
    rintro rfl
    simp at h

theorem dealCard_some_length {d d' : List Card} {c : Card}
    (h : dealCard d = some (c, d')) : d'.length + 1 = d.length := by
  unfold dealCard at h
  rcases hl : d.getLast? with _ | c0 <;> rw [hl] at h <;> simp at h
  obtain ⟨-, rfl⟩ := h
  have hne : d ≠ [] := by
    rintro rfl
    simp at hl
  have : 1 ≤ d.length := by
    cases d
    · simp at hne
    · simp
  simp [List.length_dropLast]
  omega

theorem dealUpTo_snd_length (n : Nat) (d : List Card) :
    (dealUpTo n d).2.length = d.length - n := by
  induction n generalizing d with
  | zero => simp [dealUpTo]
  | succ k ih =>
    unfold dealUpTo
    rcases h : dealCard d with _ | ⟨c, d'⟩
    · simp [dealCard_eq_none.mp h]
    · have hlen := dealCard_some_length h
      simp [ih d']
      omega

theorem dealUpTo_fst_length (n : Nat) (d : List Card) :
    (dealUpTo n d).1.length = min n d.length := by
  induction n generalizing d with
  | zero => simp [dealUpTo]
  | succ k ih =>
    unfold dealUpTo
    rcases h : dealCard d with _ | ⟨c, d'⟩
    · simp [dealCard_eq_none.mp h]
    · have hlen := dealCard_some_length h
      simp [ih d']
      omega

theorem dealToPlayers_snd_length (ps : List PlayerHand) (d : List Card) :
    (dealToPlayers ps d).2.length = d.length - 6 * ps.length := by
  induction ps generalizing d with
  | nil => simp [dealToPlayers]
  | cons p rest ih =>
    simp only [dealToPlayers]
    rw [ih]
    simp [dealUpTo_snd_length]
    ring_nf
    omega

theorem applyEffectsLoop_pile (cs : List Card) (r : GameRules.EffectsResult) :
    (GameRules.applyEffectsLoop cs r).discardPile = r.discardPile ∨
    (GameRules.applyEffectsLoop cs r).discardPile = [] := by
  induction cs generalizing r with
  | nil => left; rfl
  | cons c rest ih =>
    rcases Bool.eq_false_or_eq_true (GameRules.isBurnCard c) with hb | hb <;>
      rcases Bool.eq_false_or_eq_true (GameRules.isReverseCard c) with hrv | hrv <;>
      simp only [GameRules.applyEffectsLoop] <;> simp only [hb, hrv] <;>
      simp only [Bool.false_eq_true, if_false, if_true]
    · rcases ih ⟨[], r.clockwise, true⟩ with h | h <;> rw [h] <;> simp
    · rcases ih ⟨[], r.clockwise, r.mustPlaySevenOrLower⟩ with h | h <;> rw [h] <;> simp
    · rcases ih ⟨r.discardPile, r.clockwise, true⟩ with h | h <;> rw [h] <;> simp
    · rcases ih ⟨r.discardPile, r.clockwise, r.mustPlaySevenOrLower⟩ with h | h <;>
        rw [h] <;> simp

theorem applyEffectsLoop_pile_of_ten (cs : List Card)
    (r : GameRules.EffectsResult) (h : ∃ c ∈ cs, c.rank = Rank.TEN) :
    (GameRules.applyEffectsLoop cs r).discardPile = [] := by
  revert h
  induction cs generalizing r with
  | nil => intro h; simp at h
  | cons c rest ih =>
    intro h
    rcases h with ⟨x, hx, hrank⟩
    rcases List.mem_cons.mp hx with rfl | hmem
    · have hb : GameRules.isBurnCard x = true := by
        simp [GameRules.isBurnCard, hrank, Rank.TEN]
      rcases Bool.eq_false_or_eq_true (GameRules.isReverseCard x) with hrv | hrv <;>
        simp only [GameRules.applyEffectsLoop] <;> simp only [hb, hrv] <;>
        simp only [Bool.false_eq_true, if_false, if_true]
      · rcases applyEffectsLoop_pile rest ⟨[], r.clockwise, true⟩ with h | h <;>
          rw [h] <;> simp
      · rcases applyEffectsLoop_pile rest
            ⟨[], r.clockwise, r.mustPlaySevenOrLower⟩ with h | h <;> rw [h] <;> simp
    · rcases Bool.eq_false_or_eq_true (GameRules.isBurnCard c) with hb | hb <;>
        rcases Bool.eq_false_or_eq_true (GameRules.isReverseCard c) with hrv | hrv <;>
        simp only [GameRules.applyEffectsLoop] <;> simp only [hb, hrv] <;>
        simp only [Bool.false_eq_true, if_false, if_true] <;>
        exact ih _ ⟨x, hmem, hrank⟩

@[simp] theorem nextTurn_discardPile (st : GameSt) :
    (nextTurn st).discardPile = st.discardPile := by
  unfold nextTurn moveToNextValidPlayer
  split <;> [rfl; split <;> rfl]

@[simp] theorem nextTurn_gameState (st : GameSt) :
    (nextTurn st).gameState = st.gameState := by
  unfold nextTurn moveToNextValidPlayer
  split <;> [rfl; split <;> rfl]

@[simp] theorem nextTurn_players (st : GameSt) :
    (nextTurn st).players = st.players := by
  unfold nextTurn moveToNextValidPlayer
  split <;> [rfl; split <;> rfl]

@[simp] theorem nextTurn_mustPlaySevenOrLower (st : GameSt) :
    (nextTurn st).mustPlaySevenOrLower = st.mustPlaySevenOrLower := by
  unfold nextTurn moveToNextValidPlayer
  split <;> [rfl; split <;> rfl]

@[simp] theorem nextTurn_deck (st : GameSt) :
    (nextTurn st).deck = st.deck := by
  unfold nextTurn moveToNextValidPlayer
  split <;> [rfl; split <;> rfl]

@[simp] theorem drawCardsToHand_discardPile (st : GameSt) (pid : String) :
    (drawCardsToHand st pid).discardPile = st.discardPile := by
  unfold drawCardsToHand
  split
  · rfl
  · split <;> rfl

@[simp] theorem drawCardsToHand_gameState (st : GameSt) (pid : String) :
    (drawCardsToHand st pid).gameState = st.gameState := by
  unfold drawCardsToHand
  split
  · rfl
  · split <;> rfl

@[simp] theorem drawCardsToHand_mustPlaySevenOrLower (st : GameSt) (pid : String) :
    (drawCardsToHand st pid).mustPlaySevenOrLower = st.mustPlaySevenOrLower := by
  unfold drawCardsToHand
  split
  · rfl
  · split <;> rfl

theorem findIdxOf?_isSome {pred : α → Bool} {l : List α}
    (h : ∃ a ∈ l, pred a = true) : ∃ i, findIdxOf? pred l = some i := by
  induction l with
  | nil => simp at h
  | cons a l ih =>
    rcases h with ⟨x, hx, hpx⟩
    rcases List.mem_cons.mp hx with rfl | hmem
    · exact ⟨0, by simp [findIdxOf?, hpx]⟩
    · by_cases ha : pred a = true
      · exact ⟨0, by simp [findIdxOf?, ha]⟩
      · obtain ⟨i, hi⟩ := ih ⟨x, hmem, hpx⟩
        exact ⟨i + 1, by simp [findIdxOf?, ha, hi]⟩

theorem findIdxOf?_spec {pred : α → Bool} {l : List α} {i : Nat}
    (h : findIdxOf? pred l = some i) :
    ∃ a, l[i]? = some a ∧ pred a = true := by
  induction l generalizing i with
  | nil => simp [findIdxOf?] at h
  | cons a l ih =>
    by_cases ha : pred a = true
    · simp [findIdxOf?, ha] at h
      subst h
      exact ⟨a, by simp, ha⟩
    · simp [findIdxOf?, ha] at h
      obtain ⟨j, hj, rfl⟩ := h
      obtain ⟨x, hx, hpx⟩ := ih hj
      exact ⟨x, by simpa using hx, hpx⟩

theorem findIdxOf?_lt_length {pred : α → Bool} {l : List α} {i : Nat}
    (h : findIdxOf? pred l = some i) : i < l.length := by
  obtain ⟨a, ha, -⟩ := findIdxOf?_spec h
  exact (List.getElem?_eq_some.mp ha).1

theorem findIdxOf?_set_same {pred : α → Bool} {l : List α} {i : Nat} {p' : α}
    (h : findIdxOf? pred l = some i) (hp : pred p' = true) :
    findIdxOf? pred (l.set i p') = some i := by
  induction l generalizing i with
  | nil => simp [findIdxOf?] at h
  | cons a l ih =>
    by_cases ha : pred a = true
    · simp [findIdxOf?, ha] at h
      subst h
      simp [List.set, findIdxOf?, hp]
    · simp [findIdxOf?, ha] at h
      obtain ⟨j, hj, rfl⟩ := h
      simp [List.set, findIdxOf?, ha, ih hj]

theorem isPlayerTurn_gameState {st : GameSt} {pid : String}
    (h : isPlayerTurn st pid = true) : st.gameState = .GAME_STARTED := by
  unfold isPlayerTurn at h
  split at h
  · assumption
  · simp at h

theorem isPlayerTurn_index {st : GameSt} {pid : String}
    (h : isPlayerTurn st pid = true) :
    ∃ i player, getPlayerIndex st pid = some i ∧ st.players[i]? = some player ∧
      (player.playerId == pid) = true := by
  unfold isPlayerTurn at h
  split at h
  · split at h
    next p hcur =>
      have hmem : p ∈ st.players := List.getElem?_mem hcur
      obtain ⟨i, hi⟩ :=
        @findIdxOf?_isSome _ (fun q => q.playerId == pid) st.players ⟨p, hmem, h⟩
      obtain ⟨q, hq, hpq⟩ := findIdxOf?_spec hi
      exact ⟨i, q, hi, hq, hpq⟩
    next hcur => simp at h
  · simp at h

/-- Dissection of a non-throwing `playCards` call: either it returned
`false` leaving the state unchanged, or it went through the whole
mutation pipeline. -/
theorem playCards_ok_spec {st : GameSt} {pid : String} {cs : List Card}
    {s' : GameSt} {b : Bool} (h : playCards st pid cs = .ok (s', b)) :
    (b = false ∧ s' = st) ∨
    (b = true ∧ isPlayerTurn st pid = true ∧
      ∃ i player st3,
        getPlayerIndex st pid = some i ∧ st.players[i]? = some player ∧
        st3 = drawCardsToHand
          { st with
            players := st.players.set i
              { player with hand := cs.foldl removeFirstCard player.hand },
            discardPile := (GameRules.applySpecialCardEffects cs
              (st.discardPile ++ cs) st.clockwise st.mustPlaySevenOrLower).discardPile,
            clockwise := (GameRules.applySpecialCardEffects cs
              (st.discardPile ++ cs) st.clockwise st.mustPlaySevenOrLower).clockwise,
            mustPlaySevenOrLower := (GameRules.applySpecialCardEffects cs
              (st.discardPile ++ cs) st.clockwise st.mustPlaySevenOrLower).mustPlaySevenOrLower }
          pid ∧
        ((hasPlayerWon st3 pid = true ∧ s' = { st3 with gameState := .GAME_FINISHED }) ∨
         (hasPlayerWon st3 pid = false ∧ s' = nextTurn st3))) := by
  unfold playCards at h
  split at h
  · left
    simp only [Except.ok.injEq, Prod.mk.injEq] at h
    exact ⟨h.2.symm, h.1.symm⟩
  next hguard =>
    simp only [Bool.or_eq_true, Bool.not_eq_true', not_or, Bool.not_eq_false] at hguard
    split at h
    · left
      simp only [Except.ok.injEq, Prod.mk.injEq] at h
      exact ⟨h.2.symm, h.1.symm⟩
    next i hidx =>
      split at h
      · left
        simp only [Except.ok.injEq, Prod.mk.injEq] at h
        exact ⟨h.2.symm, h.1.symm⟩
      next player hplayer =>
        split at h
        · left
          simp only [Except.ok.injEq, Prod.mk.injEq] at h
          exact ⟨h.2.symm, h.1.symm⟩
        next hhand =>
          split at h
          · exact absurd h (by simp)
          · left
            simp only [Except.ok.injEq, Prod.mk.injEq] at h
            exact ⟨h.2.symm, h.1.symm⟩
          · simp only [] at h
            split at h
            next hwon =>
              right
              simp only [Except.ok.injEq, Prod.mk.injEq] at h
              exact ⟨h.2.symm, hguard.1, i, player, _, hidx, hplayer, rfl,
                Or.inl ⟨hwon, h.1.symm⟩⟩
            next hwon =>
              right
              simp only [Except.ok.injEq, Prod.mk.injEq] at h
              exact ⟨h.2.symm, hguard.1, i, player, _, hidx, hplayer, rfl,
                Or.inr ⟨by simpa using hwon, h.1.symm⟩⟩

/-! ## Claim C4 — validity of a 10 -/

/-- Claim C4, counterexample: the claim says a play consisting of a
rank-10 card is accepted even when `must_play_seven_or_lower` is set;
but `GameRules::canPlayOn` checks the seven-or-lower constraint before
the burn-card rule, so a lone ten of spades on a nine of diamonds under
the constraint is rejected. -/
theorem C4_counterexample :
    GameRules.isValidPlay [⟨Suit.SPADES, Rank.TEN⟩] ⟨Suit.DIAMONDS, 9⟩ true = false ∧
    GameRules.canPlayOn ⟨Suit.SPADES, Rank.TEN⟩ ⟨Suit.DIAMONDS, 9⟩ true = false := by
  decide

/-- Claim C4, amended: a rank-10 card is accepted regardless of the top
discard card whenever `must_play_seven_or_lower` is not set; when the
constraint is set it is accepted only if the top card is a 2 (wild),
because the value-at-most-7 check precedes the burn-card check. -/
theorem C4_ten_validity (c top : Card) (must : Bool) (h10 : c.rank = Rank.TEN) :
    GameRules.canPlayOn c top must = true ↔ (must = false ∨ top.rank = Rank.TWO) := by
  unfold GameRules.canPlayOn GameRules.isWildCard GameRules.isBurnCard
  simp only [h10, Card.getValue]
  cases must <;> by_cases htop : top.rank = Rank.TWO <;>
    simp [htop, Rank.TWO, Rank.TEN]

/-- Witness for `C4_ten_validity` at a concrete card pair. -/
theorem C4_ten_validity_witness :
    GameRules.canPlayOn ⟨Suit.SPADES, Rank.TEN⟩ ⟨Suit.DIAMONDS, 9⟩ false = true :=
  (C4_ten_validity ⟨Suit.SPADES, Rank.TEN⟩ ⟨Suit.DIAMONDS, 9⟩ false rfl).mpr
    (Or.inl rfl)

/-! ## Claim C1 — deck construction and deal sizes -/

/-- Claim C1: the claim says `initializeStandardDeck` produces the full
52-card deck and a two-player `START_GAME` leaves `deck_size = 43`; the
code's "TESTING" stub instead builds an 8-card deck (2s and aces only),
so after dealing to two players the deck is empty and no discard card
is placed, for every shuffle outcome.  (The code contradicts both the
spec and its own header comment, a `code_bug`.) -/
theorem C1_testing_deck_size (shuffled : List Card) (s0 : GameSt)
    (hperm : shuffled.Perm initializeStandardDeck)
    (hstart : startGameWith (mkWaiting ["Alice", "Bob"]) shuffled = .ok s0) :
    initializeStandardDeck.length = 8 ∧
    fullStandardDeck.length = 52 ∧
    initializeStandardDeck ≠ fullStandardDeck ∧
    getDeckSize s0 = 0 ∧ s0.discardPile = [] := by
  have hlen : shuffled.length = 8 := by
    simpa using hperm.length_eq
  have hdeal : (dealToPlayers
      [(⟨[], [], "Alice"⟩ : PlayerHand), ⟨[], [], "Bob"⟩] shuffled).2 = [] := by
    apply List.length_eq_zero.mp
    rw [dealToPlayers_snd_length]
    simp [hlen]
  have hW : mkWaiting ["Alice", "Bob"] =
      { deck := initializeStandardDeck, discardPile := [],
        players := [⟨[], [], "Alice"⟩, ⟨[], [], "Bob"⟩],
        currentPlayerIndex := 0, gameState := .WAITING_FOR_PLAYERS,
        clockwise := true, mustPlaySevenOrLower := false } := by decide
  rw [hW] at hstart
  unfold startGameWith at hstart
  norm_num at hstart
  unfold dealInitialCards at hstart
  simp only at hstart
  rw [hdeal] at hstart
  simp only [show dealCard [] = none from rfl] at hstart
  subst hstart
  refine ⟨by decide, by decide, by decide, ?_, ?_⟩ <;> simp [getDeckSize]

/-- Witness for `C1_testing_deck_size` at the identity shuffle. -/
theorem C1_testing_deck_size_witness :
    initializeStandardDeck.length = 8 ∧
    fullStandardDeck.length = 52 ∧
    initializeStandardDeck ≠ fullStandardDeck ∧
    getDeckSize c1StartState = 0 ∧ c1StartState.discardPile = [] :=
  C1_testing_deck_size initializeStandardDeck c1StartState (List.Perm.refl _) rfl

/-- Dissection of a `pickupDiscardPile` call: rejected with the state
unchanged, or the full pickup effect. -/
theorem pickupDiscardPile_spec (st : GameSt) (pid : String) :
    (pickupDiscardPile st pid = (st, false) ∧
      ¬(isPlayerTurn st pid = true ∧ st.discardPile ≠ [])) ∨
    (isPlayerTurn st pid = true ∧ st.discardPile ≠ [] ∧
      ∃ i player, getPlayerIndex st pid = some i ∧ st.players[i]? = some player ∧
        pickupDiscardPile st pid = (nextTurn
          { st with
            players := st.players.set i
              { player with hand := player.hand ++ st.discardPile },
            discardPile := [], mustPlaySevenOrLower := false }, true)) := by
  unfold pickupDiscardPile
  split
  next hguard =>
    left
    refine ⟨rfl, ?_⟩
    rintro ⟨ht, hp⟩
    rw [ht] at hguard
    simp at hguard
    exact hp hguard
  next hguard =>
    simp only [Bool.or_eq_true, Bool.not_eq_true', not_or, Bool.not_eq_false] at hguard
    obtain ⟨ht, hpe⟩ := hguard
    have hp : st.discardPile ≠ [] :=
      List.isEmpty_eq_false.mp (Bool.not_eq_true _ ▸ Bool.of_not_eq_true hpe)
    obtain ⟨i, player, hi, hplayer, -⟩ := isPlayerTurn_index ht
    right
    refine ⟨ht, hp, i, player, hi, hplayer, ?_⟩
    simp only [hi, hplayer]

theorem getTopDiscardCard_ok {pile : List Card} (h : pile ≠ []) :
    ∃ c, getTopDiscardCard pile = .ok c := by
  unfold getTopDiscardCard
  rcases hl : pile.getLast? with _ | c
  · exact absurd (List.getLast?_eq_none_iff.mp hl) h
  · exact ⟨c, rfl⟩

theorem playCardsValidate_ok (st : GameSt) (cs : List Card) :
    ∃ bv, playCardsValidate st cs = .ok bv := by
  unfold playCardsValidate
  split
  next hne =>
    have hp : st.discardPile ≠ [] := by
      simp only [Bool.not_eq_true'] at hne
      exact List.isEmpty_eq_false.mp hne
    obtain ⟨c, hc⟩ := getTopDiscardCard_ok hp
    rw [hc]
    exact ⟨_, rfl⟩
  · exact ⟨true, rfl⟩

theorem reserveValidate_ok (st0 : GameSt) (rc : Card) :
    ∃ bv, reserveValidate st0 rc = .ok bv := by
  unfold reserveValidate
  split
  · exact ⟨true, rfl⟩
  next hne =>
    have hp : st0.discardPile ≠ [] := by
      simpa using hne
    obtain ⟨c, hc⟩ := getTopDiscardCard_ok hp
    rw [hc]
    exact ⟨_, rfl⟩

theorem snapshotTopCard_ok (st : GameSt) :
    ∃ v, GameManager.snapshotTopCard st = .ok v := by
  unfold GameManager.snapshotTopCard
  split
  next hne =>
    have hp : getDiscardPile st ≠ [] := by
      simp only [Bool.not_eq_true'] at hne
      exact List.isEmpty_eq_false.mp hne
    obtain ⟨c, hc⟩ := getTopDiscardCard_ok hp
    rw [hc]
    exact ⟨_, rfl⟩
  · exact ⟨"1S", rfl⟩

theorem playCards_total (st : GameSt) (pid : String) (cs : List Card) :
    ∃ r, playCards st pid cs = .ok r := by
  unfold playCards
  split
  · exact ⟨_, rfl⟩
  split
  · exact ⟨_, rfl⟩
  split
  · exact ⟨_, rfl⟩
  split
  · exact ⟨_, rfl⟩
  obtain ⟨bv, hbv⟩ := playCardsValidate_ok st cs
  rw [hbv]
  cases bv
  · exact ⟨_, rfl⟩
  · simp only []
    split <;> exact ⟨_, rfl⟩

theorem playFromReserve_total (st : GameSt) (pid : String) :
    ∃ r, playFromReserve st pid = .ok r := by
  unfold playFromReserve
  split
  · exact ⟨_, rfl⟩
  split
  · exact ⟨_, rfl⟩
  next i hidx =>
    split
    · exact ⟨_, rfl⟩
    next player hplayer =>
      split
      · exact ⟨_, rfl⟩
      split
      · exact ⟨_, rfl⟩
      split
      · exact ⟨_, rfl⟩
      next rc hlast =>
        simp only []
        obtain ⟨bv, hbv⟩ := reserveValidate_ok
          { st with
            players := st.players.set i
              { player with reserves := player.reserves.dropLast } } rc
        rw [hbv]
        cases bv
        · exact ⟨_, rfl⟩
        · simp only []
          split <;> exact ⟨_, rfl⟩

theorem getGameStateForPlayer_total (active : Bool) (st : GameSt)
    (roomPlayers : List String) (player_name : String) :
    ∃ r, GameManager.getGameStateForPlayer active st roomPlayers player_name = .ok r := by
  unfold GameManager.getGameStateForPlayer
  split
  · exact ⟨_, rfl⟩
  obtain ⟨v, hv⟩ := snapshotTopCard_ok st
  rw [hv]
  exact ⟨_, rfl⟩

/-- Dissection of a non-throwing `playFromReserve` call: either it
returned `false` leaving the state unchanged, or it revealed the last
reserve card and either played it (valid) or moved it and the pile
into the hand (invalid). -/
theorem playFromReserve_ok_spec {st : GameSt} {pid : String} {s' : GameSt}
    {b : Bool} (h : playFromReserve st pid = .ok (s', b)) :
    (b = false ∧ s' = st) ∨
    (b = true ∧ isPlayerTurn st pid = true ∧
      ∃ i player rc,
        getPlayerIndex st pid = some i ∧ st.players[i]? = some player ∧
        player.hand = [] ∧ player.reserves.getLast? = some rc ∧
        ((∃ st1, st1 =
            { st with
              players := st.players.set i
                { player with reserves := player.reserves.dropLast },
              discardPile := (GameRules.applySpecialCardEffects [rc]
                (st.discardPile ++ [rc]) st.clockwise st.mustPlaySevenOrLower).discardPile,
              clockwise := (GameRules.applySpecialCardEffects [rc]
                (st.discardPile ++ [rc]) st.clockwise st.mustPlaySevenOrLower).clockwise,
              mustPlaySevenOrLower := (GameRules.applySpecialCardEffects [rc]
                (st.discardPile ++ [rc]) st.clockwise st.mustPlaySevenOrLower).mustPlaySevenOrLower } ∧
          ((hasPlayerWon st1 pid = true ∧ s' = { st1 with gameState := .GAME_FINISHED }) ∨
           (hasPlayerWon st1 pid = false ∧ s' = nextTurn st1))) ∨
         s' = nextTurn
           { st with
             players := st.players.set i
               { player with
                 hand := player.hand ++ [rc] ++ st.discardPile,
                 reserves := player.reserves.dropLast },
             discardPile := [], mustPlaySevenOrLower := false })) := by
  unfold playFromReserve at h
  split at h
  · left
    simp only [Except.ok.injEq, Prod.mk.injEq] at h
    exact ⟨h.2.symm, h.1.symm⟩
  next hguard =>
    have hturn : isPlayerTurn st pid = true := by
      simpa using hguard
    split at h
    · left
      simp only [Except.ok.injEq, Prod.mk.injEq] at h
      exact ⟨h.2.symm, h.1.symm⟩
    next i hidx =>
      split at h
      · left
        simp only [Except.ok.injEq, Prod.mk.injEq] at h
        exact ⟨h.2.symm, h.1.symm⟩
      next player hplayer =>
        split at h
        · left
          simp only [Except.ok.injEq, Prod.mk.injEq] at h
          exact ⟨h.2.symm, h.1.symm⟩
        next hhand =>
          split at h
          · left
            simp only [Except.ok.injEq, Prod.mk.injEq] at h
            exact ⟨h.2.symm, h.1.symm⟩
          next hres =>
            have hhe : player.hand = [] := by
              simp only [Bool.not_eq_true', Bool.not_eq_false] at hhand
              exact List.isEmpty_iff.mp hhand
            split at h
            · left
              simp only [Except.ok.injEq, Prod.mk.injEq] at h
              exact ⟨h.2.symm, h.1.symm⟩
            next rc hlast =>
              simp only [] at h
              split at h
              · exact absurd h (by simp)
              next hwon1 =>
                split at h
                next hwon =>
                  right
                  simp only [Except.ok.injEq, Prod.mk.injEq] at h
                  exact ⟨h.2.symm, hturn, i, player, rc, hidx, hplayer, hhe, hlast,
                    Or.inl ⟨_, rfl, Or.inl ⟨hwon, h.1.symm⟩⟩⟩
                next hwon =>
                  right
                  simp only [Except.ok.injEq, Prod.mk.injEq] at h
                  exact ⟨h.2.symm, hturn, i, player, rc, hidx, hplayer, hhe, hlast,
                    Or.inl ⟨_, rfl, Or.inr ⟨by simpa using hwon, h.1.symm⟩⟩⟩
              · right
                simp only [Except.ok.injEq, Prod.mk.injEq] at h
                refine ⟨h.2.symm, hturn, i, player, rc, hidx, hplayer, hhe, hlast,
                  Or.inr ?_⟩
                rw [← h.1]
                congr 1
                simp [List.set_set, hhe]

theorem getPlayerIndex_pred {st : GameSt} {pid : String} {i : Nat}
    {player : PlayerHand} (hidx : getPlayerIndex st pid = some i)
    (hplayer : st.players[i]? = some player) :
    (player.playerId == pid) = true := by
  obtain ⟨a, ha, hpa⟩ := findIdxOf?_spec hidx
  rw [hplayer] at ha
  injection ha with ha
  rw [ha]
  exact hpa

theorem drawCardsToHand_split (st : GameSt) (pid : String) (i : Nat)
    (p : PlayerHand) (hidx : getPlayerIndex st pid = some i)
    (hp : st.players[i]? = some p) :
    drawCardsToHand st pid =
      { st with
        players := st.players.set i { p with hand := (drawLoop p.hand st.deck).1 },
        deck := (drawLoop p.hand st.deck).2 } := by
  unfold drawCardsToHand
  simp only [hidx, hp]

theorem bothEmpty_bool {p : PlayerHand} :
    (p.hand.isEmpty && p.reserves.isEmpty) = true ↔ BothEmpty p := by
  simp [BothEmpty, List.isEmpty_iff]

theorem EngineInv_of_started {s' : GameSt} (hgs : s'.gameState = .GAME_STARTED)
    (hall : ∀ p ∈ s'.players, ¬ BothEmpty p) : EngineInv s' :=
  ⟨Or.inl hgs, fun _ => hall, fun p hp q hq hbp _ => absurd hbp (hall p hp)⟩

theorem EngineInv_of_finished {s' : GameSt} (hgs : s'.gameState = .GAME_FINISHED)
    (huni : ∀ p ∈ s'.players, ∀ q ∈ s'.players,
      BothEmpty p → BothEmpty q → p = q) : EngineInv s' :=
  ⟨Or.inr hgs, fun h => by rw [h] at hgs; exact absurd hgs (by simp), huni⟩

theorem all_of_set {l : List PlayerHand} {i : Nat} {pnew : PlayerHand}
    (horig : ∀ p ∈ l, ¬ BothEmpty p) (hnew : ¬ BothEmpty pnew) :
    ∀ p ∈ l.set i pnew, ¬ BothEmpty p := by
  intro p hp
  rcases List.mem_or_eq_of_mem_set hp with hpl | rfl
  · exact horig p hpl
  · exact hnew

theorem uniq_of_set {l : List PlayerHand} {i : Nat} {pnew : PlayerHand}
    (horig : ∀ p ∈ l, ¬ BothEmpty p) :
    ∀ p ∈ l.set i pnew, ∀ q ∈ l.set i pnew,
      BothEmpty p → BothEmpty q → p = q := by
  intro p hp q hq hbp hbq
  rcases List.mem_or_eq_of_mem_set hp with hpl | rfl
  · exact absurd hbp (horig p hpl)
  · rcases List.mem_or_eq_of_mem_set hq with hql | rfl
    · exact absurd hbq (horig q hql)
    · rfl

theorem hasPlayerWon_eq {t : GameSt} {pid : String} {i : Nat} {q : PlayerHand}
    (hidx : getPlayerIndex t pid = some i) (hq : t.players[i]? = some q) :
    hasPlayerWon t pid = (q.hand.isEmpty && q.reserves.isEmpty) := by
  unfold hasPlayerWon
  simp only [hidx, hq]

/-- Digest of the state after the mutation pipeline of `playCards`:
the phase is preserved, exactly the acting player's entry is replaced
(keeping id and reserves), and the win check reads that entry. -/
theorem play_st3_props {s : GameSt} {pid : String} {cs : List Card} {i : Nat}
    {player : PlayerHand} {st3 : GameSt}
    (hidx : getPlayerIndex s pid = some i)
    (hplayer : s.players[i]? = some player)
    (hst3 : st3 = drawCardsToHand
      { s with
        players := s.players.set i
          { player with hand := cs.foldl removeFirstCard player.hand },
        discardPile := (GameRules.applySpecialCardEffects cs
          (s.discardPile ++ cs) s.clockwise s.mustPlaySevenOrLower).discardPile,
        clockwise := (GameRules.applySpecialCardEffects cs
          (s.discardPile ++ cs) s.clockwise s.mustPlaySevenOrLower).clockwise,
        mustPlaySevenOrLower := (GameRules.applySpecialCardEffects cs
          (s.discardPile ++ cs) s.clockwise s.mustPlaySevenOrLower).mustPlaySevenOrLower }
      pid) :
    st3.gameState = s.gameState ∧
    ∃ pnew : PlayerHand, pnew.playerId = player.playerId ∧
      pnew.reserves = player.reserves ∧
      st3.players = s.players.set i pnew ∧
      hasPlayerWon st3 pid = (pnew.hand.isEmpty && pnew.reserves.isEmpty) := by
  have hlt : i < s.players.length := findIdxOf?_lt_length hidx
  have hpred := getPlayerIndex_pred hidx hplayer
  subst hst3
  set phand : PlayerHand :=
    { player with hand := cs.foldl removeFirstCard player.hand } with hphand
  set A : GameSt :=
    { s with
      players := s.players.set i phand,
      discardPile := (GameRules.applySpecialCardEffects cs
        (s.discardPile ++ cs) s.clockwise s.mustPlaySevenOrLower).discardPile,
      clockwise := (GameRules.applySpecialCardEffects cs
        (s.discardPile ++ cs) s.clockwise s.mustPlaySevenOrLower).clockwise,
      mustPlaySevenOrLower := (GameRules.applySpecialCardEffects cs
        (s.discardPile ++ cs) s.clockwise s.mustPlaySevenOrLower).mustPlaySevenOrLower }
    with hA
  have hpredA : (phand.playerId == pid) = true := hpred
  have hidxA : getPlayerIndex A pid = some i := findIdxOf?_set_same hidx hpredA
  have hgetA : A.players[i]? = some phand :=
    List.getElem?_set_eq (by simpa using hlt)
  rw [drawCardsToHand_split A pid i phand hidxA hgetA]
  have hplayers3 :
      (A.players.set i { phand with hand := (drawLoop phand.hand A.deck).1 }) =
      s.players.set i { phand with hand := (drawLoop phand.hand A.deck).1 } := by
    rw [hA]
    simp [List.set_set]
  refine ⟨rfl, { phand with hand := (drawLoop phand.hand A.deck).1 }, rfl, rfl, ?_, ?_⟩
  · exact hplayers3
  · refine @hasPlayerWon_eq _ _ i _ ?_ ?_
    · show findIdxOf? _ _ = some i
      simp only []
      rw [hplayers3]
      exact findIdxOf?_set_same hidx hpredA
    · simp only []
      rw [hplayers3]
      exact List.getElem?_set_eq (by simpa using hlt)

/-- The engine invariant is preserved by every engine operation. -/
theorem EngineInv_step {s s' : GameSt} (hinv : EngineInv s) (hstep : Step s s') :
    EngineInv s' := by
  obtain ⟨hphase, hrun, huniq⟩ := hinv
  rcases hstep with ⟨pid, cs, h⟩ | ⟨pid, h⟩ | ⟨pid, h⟩
  · -- playCards
    rcases playCards_ok_spec h with ⟨-, rfl⟩ |
      ⟨-, hturn, i, player, st3, hidx, hplayer, hst3, hcase⟩
    · exact ⟨hphase, hrun, huniq⟩
    · have hstarted := isPlayerTurn_gameState hturn
      obtain ⟨hgs3, pnew, -, -, hpl3, hwon3⟩ := play_st3_props hidx hplayer hst3
      have horig : ∀ p ∈ s.players, ¬ BothEmpty p := hrun hstarted
      rcases hcase with ⟨hw, rfl⟩ | ⟨hw, rfl⟩
      · refine EngineInv_of_finished rfl ?_
        show ∀ p ∈ st3.players, ∀ q ∈ st3.players, _
        rw [hpl3]
        exact uniq_of_set horig
      · refine EngineInv_of_started (by rw [nextTurn_gameState, hgs3]; exact hstarted) ?_
        intro p hp
        rw [nextTurn_players, hpl3] at hp
        refine all_of_set horig ?_ p hp
        intro hbe
        rw [hwon3] at hw
        exact absurd (bothEmpty_bool.mpr hbe) (by simp [hw])
  · -- playFromReserve
    rcases playFromReserve_ok_spec h with ⟨-, rfl⟩ |
      ⟨-, hturn, i, player, rc, hidx, hplayer, hhe, hlast, hbranch⟩
    · exact ⟨hphase, hrun, huniq⟩
    · have hstarted := isPlayerTurn_gameState hturn
      have horig : ∀ p ∈ s.players, ¬ BothEmpty p := hrun hstarted
      have hlt : i < s.players.length := findIdxOf?_lt_length hidx
      have hpred := getPlayerIndex_pred hidx hplayer
      rcases hbranch with ⟨st1, hst1, hc⟩ | rfl
      · have hpl1 : st1.players = s.players.set i
            { player with reserves := player.reserves.dropLast } := by
          rw [hst1]
        have hgs1 : st1.gameState = s.gameState := by rw [hst1]
        have hwon1 : hasPlayerWon st1 pid =
            (({ player with reserves := player.reserves.dropLast } : PlayerHand).hand.isEmpty &&
             ({ player with reserves := player.reserves.dropLast } : PlayerHand).reserves.isEmpty) := by
          refine @hasPlayerWon_eq _ _ i _ ?_ ?_
          · show findIdxOf? _ _ = some i
            rw [hpl1]
            exact findIdxOf?_set_same hidx hpred
          · rw [hpl1]
            exact List.getElem?_set_eq (by simpa using hlt)
        rcases hc with ⟨hw, rfl⟩ | ⟨hw, rfl⟩
        · refine EngineInv_of_finished rfl ?_
          show ∀ p ∈ st1.players, ∀ q ∈ st1.players, _
          rw [hpl1]
          exact uniq_of_set horig
        · refine EngineInv_of_started (by rw [nextTurn_gameState, hgs1]; exact hstarted) ?_
          intro p hp
          rw [nextTurn_players, hpl1] at hp
          refine all_of_set horig ?_ p hp
          intro hbe
          rw [hwon1] at hw
          exact absurd (bothEmpty_bool.mpr hbe) (by simp [hw])
      · refine EngineInv_of_started (by rw [nextTurn_gameState]; exact hstarted) ?_
        intro p hp
        rw [nextTurn_players] at hp
        have hp' : p ∈ s.players.set i
            { player with
              hand := player.hand ++ [rc] ++ s.discardPile,
              reserves := player.reserves.dropLast } := hp
        refine all_of_set horig ?_ p hp'
        intro hbe
        obtain ⟨hbh, -⟩ := hbe
        simp at hbh
  · -- pickupDiscardPile
    rcases pickupDiscardPile_spec s pid with ⟨heq, -⟩ |
      ⟨hturn, hpne, i, player, hidx, hplayer, heq⟩
    · rw [heq] at h
      simp only [Prod.mk.injEq] at h
      obtain ⟨rfl, -⟩ := h
      exact ⟨hphase, hrun, huniq⟩
    · rw [heq] at h
      simp only [Prod.mk.injEq] at h
      obtain ⟨hs', -⟩ := h
      subst hs'
      have hstarted := isPlayerTurn_gameState hturn
      have horig : ∀ p ∈ s.players, ¬ BothEmpty p := hrun hstarted
      refine EngineInv_of_started (by rw [nextTurn_gameState]; exact hstarted) ?_
      intro p hp
      rw [nextTurn_players] at hp
      have hp' : p ∈ s.players.set i
          { player with hand := player.hand ++ s.discardPile } := hp
      refine all_of_set horig ?_ p hp'
      intro hbe
      obtain ⟨hbh, -⟩ := hbe
      simp only [List.append_eq_nil] at hbh
      exact hpne hbh.2

/-- The engine invariant holds right after a two-player `startGame`. -/
theorem EngineInv_start {ids : List String} {shuffled : List Card} {s0 : GameSt}
    (hlen : ids.length = 2) (hperm : shuffled.Perm initializeStandardDeck)
    (hstart : startGameWith (mkWaiting ids) shuffled = .ok s0) : EngineInv s0 := by
  have hdlen : shuffled.length = 8 := by
    simpa using hperm.length_eq
  obtain ⟨a, b, rfl⟩ : ∃ a b, ids = [a, b] := by
    match ids, hlen with
    | [a, b], _ => exact ⟨a, b, rfl⟩
  by_cases hab : a = b
  · subst hab
    have hW : (mkWaiting [a, a]).players = [⟨[], [], a⟩] := by
      simp [mkWaiting, addPlayer, initialGameSt, getPlayerIndex, findIdxOf?]
    unfold startGameWith at hstart
    rw [hW] at hstart
    simp at hstart
  · have hW : mkWaiting [a, b] =
        { deck := initializeStandardDeck, discardPile := [],
          players := [⟨[], [], a⟩, ⟨[], [], b⟩], currentPlayerIndex := 0,
          gameState := .WAITING_FOR_PLAYERS, clockwise := true,
          mustPlaySevenOrLower := false } := by
      simp [mkWaiting, addPlayer, initialGameSt, getPlayerIndex, findIdxOf?, hab]
    unfold startGameWith at hstart
    rw [hW] at hstart
    norm_num at hstart
    unfold dealInitialCards at hstart
    simp only [] at hstart
    have hr2 : (dealToPlayers [(⟨[], [], a⟩ : PlayerHand), ⟨[], [], b⟩] shuffled).2
        = [] := by
      apply List.length_eq_zero.mp
      rw [dealToPlayers_snd_length]
      simp [hdlen]
    rw [hr2] at hstart
    rw [show dealCard [] = none from rfl] at hstart
    simp only [Except.ok.injEq] at hstart
    subst hstart
    refine EngineInv_of_started rfl ?_
    intro p hp
    simp only [dealToPlayers, List.mem_cons, List.not_mem_nil, or_false] at hp
    rcases hp with rfl | rfl
    · rintro ⟨-, hres⟩
      have := congrArg List.length hres
      rw [dealUpTo_fst_length] at this
      simp [hdlen] at this
    · rintro ⟨-, hres⟩
      have := congrArg List.length hres
      rw [dealUpTo_fst_length] at this
      rw [dealUpTo_snd_length, dealUpTo_snd_length, hdlen] at this
      simp at this

/-! ## Claim C6 — the win invariant -/

/-- Claim C6, counterexample: the claim asserts the invariant for every
game reachable from `startGame` (any player count ≥ 2); with the code's
8-card testing deck a three-player `startGame` deals nothing to the
third player, who then has an empty hand and empty reserves while the
phase is `GAME_STARTED`, not `GAME_FINISHED`. -/
theorem C6_counterexample :
    startGameWith (mkWaiting ["Alice", "Bob", "Carol"]) initializeStandardDeck =
      .ok c6ThreeState ∧
    (⟨[], [], "Carol"⟩ : PlayerHand) ∈ c6ThreeState.players ∧
    c6ThreeState.gameState = .GAME_STARTED ∧
    c6ThreeState.gameState ≠ .GAME_FINISHED :=
  ⟨rfl, by decide, by decide, by decide⟩

/-- Reachable two-player states satisfy the engine invariant. -/
theorem ReachableTwo_inv {s : GameSt} (hreach : ReachableTwo s) : EngineInv s := by
  obtain ⟨ids, shuffled, s0, hlen, hperm, hstart, hrtg⟩ := hreach
  induction hrtg with
  | refl => exact EngineInv_start hlen hperm hstart
  | tail hab hbc ih => exact EngineInv_step ih hbc

/-- Claim C6, amended to two-player games: in every game state
reachable from a two-player `startGame` by any sequence of `playCards`,
`playFromReserve` and `pickupDiscardPile` operations, a player with an
empty hand and empty reserves implies the phase is `GAME_FINISHED` and
`getWinner` names that player. -/
theorem C6_two_player_invariant (s : GameSt) (hreach : ReachableTwo s)
    (p : PlayerHand) (hp : p ∈ s.players) (hh : p.hand = [])
    (hr : p.reserves = []) :
    s.gameState = .GAME_FINISHED ∧ getWinner s = p.playerId := by
  have hinv : EngineInv s := ReachableTwo_inv hreach
  have hbe : BothEmpty p := ⟨hh, hr⟩
  have hfin : s.gameState = .GAME_FINISHED := by
    rcases hinv.1 with hA | hA
    · exact absurd hbe (hinv.2.1 hA p hp)
    · exact hA
  refine ⟨hfin, ?_⟩
  unfold getWinner
  rw [hfin]
  simp only [ne_eq, not_true_eq_false, if_false]
  rcases hfind : s.players.find? (fun q => q.hand.isEmpty && q.reserves.isEmpty)
    with _ | q
  · exfalso
    have hnone := List.find?_eq_none.mp hfind p hp
    simp [hh, hr] at hnone
  · have hq1 := List.find?_some hfind
    have hq2 := List.mem_of_find?_eq_some hfind
    have hqp : q = p := hinv.2.2 q hq2 p hp (bothEmpty_bool.mp hq1) hbe
    simp only [hfind, hqp]

/-- Witness for `C6_two_player_invariant`: the explicit two-player game
`c1StartState → c6s1 → c6s2 → c6s3 → c6s4` in which Bob sheds all his
cards; the theorem yields the finished phase and Bob as winner. -/
theorem C6_two_player_invariant_witness :
    c6s4.gameState = .GAME_FINISHED ∧ getWinner c6s4 = "Bob" := by
  have hreach : ReachableTwo c6s4 := by
    refine ⟨["Alice", "Bob"], initializeStandardDeck, c1StartState, rfl,
      List.Perm.refl _, rfl, ?_⟩
    have s1 : Step c1StartState c6s1 := Step.play "Alice" [⟨.CLUBS, Rank.TWO⟩] rfl
    have s2 : Step c6s1 c6s2 := Step.reserve "Bob" rfl
    have s3 : Step c6s2 c6s3 := Step.play "Alice" [⟨.DIAMONDS, Rank.ACE⟩] rfl
    have s4 : Step c6s3 c6s4 := Step.reserve "Bob" rfl
    exact .tail (.tail (.tail (.tail .refl s1) s2) s3) s4
  exact C6_two_player_invariant c6s4 hreach ⟨[], [], "Bob"⟩ (by decide) rfl rfl

/-! ## Claim C10 — the empty-pile throw is unreachable -/

/-- Claim C10: `getTopDiscardCard` throws on an empty pile, but every
internal call site guards it — the validation of `playCards`, the
validity check of `playFromReserve` and the snapshot builder
`getGameStateForPlayer` (which substitutes the placeholder) first check
the pile is non-empty, so these operations never propagate any
exception, in particular never the empty-pile one. -/
theorem C10_empty_pile_guarded (st : GameSt) (pid : String) (cs : List Card)
    (active : Bool) (roomPlayers : List String) :
    getTopDiscardCard ([] : List Card) = .error .emptyPile ∧
    (∀ e, playCards st pid cs ≠ .error e) ∧
    (∀ e, playFromReserve st pid ≠ .error e) ∧
    (∀ e, GameManager.getGameStateForPlayer active st roomPlayers pid ≠ .error e) := by
  refine ⟨rfl, ?_, ?_, ?_⟩
  · intro e hcon
    obtain ⟨r, hr⟩ := playCards_total st pid cs
    rw [hr] at hcon
    exact absurd hcon (by simp)
  · intro e hcon
    obtain ⟨r, hr⟩ := playFromReserve_total st pid
    rw [hr] at hcon
    exact absurd hcon (by simp)
  · intro e hcon
    obtain ⟨r, hr⟩ := getGameStateForPlayer_total active st roomPlayers pid
    rw [hr] at hcon
    exact absurd hcon (by simp)

/-- Witness for `C10_empty_pile_guarded` at a concrete state and error. -/
theorem C10_empty_pile_guarded_witness :
    playCards c8State "Alice" [⟨Suit.HEARTS, 5⟩] ≠ .error CppError.emptyPile :=
  (C10_empty_pile_guarded c8State "Alice" [⟨Suit.HEARTS, 5⟩] true []).2.1
    CppError.emptyPile

/-! ## Claim C8 — PICKUP_PILE contract -/

/-- Claim C8: `pickupDiscardPile` succeeds if and only if the requester
is the current player (`isPlayerTurn`, which also requires a running
game) and the discard pile is non-empty; on success the whole discard
pile is appended to the requester's hand, the pile becomes empty,
`must_play_seven_or_lower` is cleared, the turn advances (`nextTurn`)
and the deck is untouched (no draws); on failure the state is returned
unchanged. -/
theorem C8_pickup_iff (st : GameSt) (pid : String) :
    ((pickupDiscardPile st pid).2 = true ↔
      (isPlayerTurn st pid = true ∧ st.discardPile ≠ [])) ∧
    ((pickupDiscardPile st pid).2 = false → (pickupDiscardPile st pid).1 = st) ∧
    ((pickupDiscardPile st pid).2 = true →
      ∃ i player, getPlayerIndex st pid = some i ∧ st.players[i]? = some player ∧
        (pickupDiscardPile st pid).1 = nextTurn
          { st with
            players := st.players.set i
              { player with hand := player.hand ++ st.discardPile },
            discardPile := [], mustPlaySevenOrLower := false } ∧
        (pickupDiscardPile st pid).1.discardPile = [] ∧
        (pickupDiscardPile st pid).1.mustPlaySevenOrLower = false ∧
        (pickupDiscardPile st pid).1.deck = st.deck ∧
        (pickupDiscardPile st pid).1.gameState = st.gameState ∧
        (pickupDiscardPile st pid).1.players = st.players.set i
          { player with hand := player.hand ++ st.discardPile }) := by
  rcases pickupDiscardPile_spec st pid with ⟨heq, hng⟩ |
    ⟨ht, hp, i, player, hi, hplayer, heq⟩
  · refine ⟨by rw [heq]; simpa using hng, by rw [heq]; intro h; rfl, ?_⟩
    rw [heq]
    simp
  · refine ⟨by rw [heq]; simpa using ⟨ht, hp⟩, by rw [heq]; simp, ?_⟩
    intro hsucc
    refine ⟨i, player, hi, hplayer, by rw [heq], ?_, ?_, ?_, ?_, ?_⟩ <;>
      rw [heq] <;> simp

/-- Witness for `C8_pickup_iff`: Alice picks up a two-card pile while
the seven-or-lower constraint is set; the pickup succeeds and clears
the constraint. -/
theorem C8_pickup_iff_witness :
    (pickupDiscardPile c8State "Alice").2 = true ∧
    (pickupDiscardPile c8State "Alice").1.mustPlaySevenOrLower = false := by
  have h1 : (pickupDiscardPile c8State "Alice").2 = true :=
    (C8_pickup_iff c8State "Alice").1.mpr ⟨by decide, by decide⟩
  obtain ⟨-, -, -, -, -, -, hmust, -⟩ := (C8_pickup_iff c8State "Alice").2.2 h1
  exact ⟨h1, hmust⟩

/-! ## Claim C5 — a 10 burns the pile including itself -/

/-- Claim C5: playing a 10 burns the discard pile together with the
just-played 10 itself — after any accepted `playCards` containing a
rank-10 card the discard pile is empty (the played cards are appended
before `applySpecialCardEffects` clears the pile), and a GAME_STATE
snapshot built afterwards (while the game is still active) reports
`discard_pile_size = 0` with the placeholder top card `1S`. -/
theorem C5_burn_empties_pile (st : GameSt) (pid : String) (cs : List Card)
    (s' : GameSt) (hplay : playCards st pid cs = .ok (s', true))
    (hten : ∃ c ∈ cs, c.rank = Rank.TEN) :
    s'.discardPile = [] ∧
    (∀ roomPlayers viewer gsd,
      GameManager.getGameStateForPlayer true s' roomPlayers viewer = .ok gsd →
      gsd.valid = true →
      gsd.discard_pile_size = 0 ∧ gsd.top_discard_card = "1S") := by
  have hpile : s'.discardPile = [] := by
    rcases playCards_ok_spec hplay with ⟨hb, -⟩ | ⟨-, -, i, player, st3, -, -, hst3, hcase⟩
    · simp at hb
    · have heff : (GameRules.applySpecialCardEffects cs (st.discardPile ++ cs)
          st.clockwise st.mustPlaySevenOrLower).discardPile = [] :=
        applyEffectsLoop_pile_of_ten cs _ hten
      have h3 : st3.discardPile = [] := by
        rw [hst3, drawCardsToHand_discardPile]
        exact heff
      rcases hcase with ⟨-, rfl⟩ | ⟨-, rfl⟩
      · exact h3
      · rw [nextTurn_discardPile]
        exact h3
  refine ⟨hpile, ?_⟩
  intro roomPlayers viewer gsd hgs hvalid
  unfold GameManager.getGameStateForPlayer at hgs
  split at hgs
  · simp only [Except.ok.injEq] at hgs
    subst hgs
    simp at hvalid
  · have htop : GameManager.snapshotTopCard s' = .ok "1S" := by
      unfold GameManager.snapshotTopCard
      simp [getDiscardPile, hpile]
    rw [htop] at hgs
    simp only [Except.ok.injEq] at hgs
    subst hgs
    simp [getDiscardPile, hpile]

/-- Witness for `C5_burn_empties_pile`: Alice burns a three of diamonds
with the ten of spades. -/
theorem C5_burn_empties_pile_witness : c5After.discardPile = [] :=
  (C5_burn_empties_pile c5State "Alice" [⟨Suit.SPADES, Rank.TEN⟩] c5After rfl
    (by decide)).1

/-! ## Claim C2 — multiset containment of played cards -/

/-- Claim C2 (code_bug): the claim (and the spec) require the claimed
cards to be contained in the hand as a multiset, so naming the same
card twice with one copy in hand must be rejected with the state
unchanged; `GameLogic::playCards` validates each claimed card with an
independent `std::find_if`, so the duplicate request is accepted: the
single five of hearts is erased from the hand once but appended to the
discard pile twice, duplicating a card. -/
theorem C2_duplicate_play_accepted :
    (getPlayerHand c2State "Alice").count ⟨Suit.HEARTS, 5⟩ = 1 ∧
    playCards c2State "Alice" [⟨Suit.HEARTS, 5⟩, ⟨Suit.HEARTS, 5⟩] =
      .ok (c2After, true) ∧
    c2After.discardPile = [⟨Suit.HEARTS, 5⟩, ⟨Suit.HEARTS, 5⟩] ∧
    getPlayerHand c2After "Alice" = [] ∧
    c2After ≠ c2State :=
  ⟨by decide, rfl, by decide, by decide, by decide⟩

/-! ## Claim C3 — the RESERVE token -/

/-- Claim C3 (code_bug): the claim says a PLAY_CARDS request carrying
the token `RESERVE` (hand empty, reserves non-empty) reveals and plays
the last reserve card; in the modular server `GameManager::playCards`
has no RESERVE branch and `parseCardFromString("RESERVE")` throws
`std::invalid_argument` ("Invalid suit: E") — `GameLogic::playFromReserve`
is dead code, contradicting the handler comment "handles both normal
and reserve plays".  On `c3State` (empty hand, one valid reserve king)
the request throws instead of winning the game for Alice, as the dead
engine routine would have. -/
theorem C3_reserve_token_throws :
    getPlayerHand c3State "Alice" = [] ∧
    getPlayerReserves c3State "Alice" = [⟨Suit.CLUBS, Rank.KING⟩] ∧
    GameManager.parseCardFromString "RESERVE" = .error (.invalidSuit 'E') ∧
    GameManager.playCardsGM true c3State "Alice" ["RESERVE"] =
      .error (.invalidSuit 'E') ∧
    playFromReserve c3State "Alice" = .ok (c3ReserveAfter, true) ∧
    c3ReserveAfter.discardPile = [⟨Suit.DIAMONDS, 9⟩, ⟨Suit.CLUBS, Rank.KING⟩] ∧
    c3ReserveAfter.gameState = .GAME_FINISHED :=
  ⟨by decide, by decide, rfl, rfl, rfl, by decide, by decide⟩

/-! ## Claim C9 — unknown message types and the teardown marker -/

/-- Claim C9, counterexample: the server-to-client code 100
(`CONNECTED`) is not a client request type, yet the frame `100||` is
answered with the plain `Unknown message type` ERROR, which does not
carry the `disconnect=true` teardown marker — `isValidMessageType`
accepts every `MessageType` enumerator, so the disconnect-marked branch
is never taken for it. -/
theorem C9_counterexample :
    (100 : Int) ∉ clientRequestCodes ∧
    isValidMessageType 100 = true ∧
    processRoute "100||" "Alice" =
      .reply [createErrorResponse "Unknown message type"] ∧
    (createErrorResponse "Unknown message type").hasData "disconnect" = false ∧
    processRoute "100||" "Alice" ≠ disconnectReply := by
  refine ⟨by decide, by decide, by decide, by decide, by decide⟩

/-- Claim C9, amended: the router's reply carries the `disconnect=true`
teardown marker exactly when the raw frame fails `isValidFormat` or its
parsed type is not a `MessageType` enumerator (`isValidMessageType`);
a known server-to-client code that is not a client request instead gets
a plain ERROR reply without the marker. -/
theorem C9_disconnect_iff (raw socketPlayer : String) :
    processRoute raw socketPlayer = disconnectReply ↔
      (isValidFormat raw = false ∨
        isValidMessageType (ProtocolMessage.parse raw).type = false) := by
  unfold processRoute disconnectReply
  rcases hf : isValidFormat raw with _ | _
  · simp [hf]
  · rcases ht : isValidMessageType (ProtocolMessage.parse raw).type with _ | _
    · simp [hf, ht]
    · simp only [hf, ht, Bool.not_true, Bool.false_eq_true, Bool.true_eq_false,
        if_false, or_self, iff_false]
      intro hcon
      rcases hra : requiresActivePlayer (ProtocolMessage.parse raw).type with _ | _
      · simp only [hra, Bool.false_and, Bool.false_eq_true, if_false] at hcon
        iterate 8 (split at hcon; case _ => exact RouteResult.noConfusion hcon)
        exact absurd hcon (by decide)
      · simp only [hra, Bool.true_and, if_true] at hcon
        split at hcon
        · exact absurd hcon (by decide)
        · iterate 8 (split at hcon; case _ => exact RouteResult.noConfusion hcon)
          exact absurd hcon (by decide)

/-- Witness for `C9_disconnect_iff`: the malformed frame `abc` (no type
integer) gets the disconnect-marked reply. -/
theorem C9_disconnect_iff_witness :
    processRoute "abc" "Alice" = disconnectReply :=
  (C9_disconnect_iff "abc" "Alice").mpr (Or.inl (by decide))

/-! ## Helper lemmas for the wire codec (claim C7) -/

theorem lexLt_irrefl (a : List Char) : lexLt a a = false := by
  induction a with
  | nil => rfl
  | cons c as ih => simp [lexLt, ih]

theorem lexLt_asymm (a : List Char) : ∀ b, lexLt a b = true → lexLt b a = false := by
  induction a with
  | nil =>
    intro b h
    cases b with
    | nil => simpa [lexLt] using h
    | cons d ds => rfl
  | cons c as ih =>
    intro b h
    cases b with
    | nil => simp [lexLt] at h
    | cons d ds =>
      simp only [lexLt] at h ⊢
      by_cases h1 : c < d
      · have h2 : ¬ d < c := asymm h1
        simp [h1, h2]
      · by_cases h2 : d < c
        · simp [h1, h2] at h
        · simp only [h1, h2, if_false] at h
          simp [h1, h2, ih ds h]

theorem strLt_asymm {s t : String} (h : strLt s t = true) : strLt t s = false :=
  lexLt_asymm s.data t.data h

theorem strLt_ne {s t : String} (h : strLt s t = true) : s ≠ t := by
  rintro rfl
  rw [strLt, lexLt_irrefl] at h
  exact absurd h (by simp)

theorem mapInsert_append (k v : String) :
    ∀ m : List (String × String),
      (∀ kv ∈ m, strLt kv.1 k = true) → mapInsert k v m = m ++ [(k, v)] := by
  intro m
  induction m with
  | nil => intro _; rfl
  | cons kv rest ih =>
    intro h
    have hk : strLt kv.1 k = true := h kv (by simp)
    have h1 : strLt k kv.1 = false := strLt_asymm hk
    have h2 : k ≠ kv.1 := (strLt_ne hk).symm
    obtain ⟨k1, v1⟩ := kv
    simp only [mapInsert]
    rw [if_neg (by simp [h1]), if_neg h2,
      ih (fun kv2 hkv2 => h kv2 (by simp [hkv2]))]
    simp

theorem foldl_mapInsert_append :
    ∀ (l m : List (String × String)),
      keysPairwiseSorted (l.map Prod.fst) = true →
      (∀ kv ∈ m, ∀ kv2 ∈ l, strLt kv.1 kv2.1 = true) →
      l.foldl (fun d kv => mapInsert kv.1 kv.2 d) m = m ++ l := by
  intro l
  induction l with
  | nil => intro m _ _; simp
  | cons kv rest ih =>
    intro m hsort hlt
    obtain ⟨k, v⟩ := kv
    simp only [List.map_cons, keysPairwiseSorted, Bool.and_eq_true,
      List.all_eq_true] at hsort
    obtain ⟨hhead, htail⟩ := hsort
    have hm : mapInsert k v m = m ++ [(k, v)] :=
      mapInsert_append k v m (fun kv2 hkv2 => hlt kv2 hkv2 (k, v) (by simp))
    simp only [List.foldl_cons, hm]
    rw [ih (m ++ [(k, v)]) htail ?_]
    · simp
    · intro kv2 hkv2 kv3 hkv3
      rcases List.mem_append.mp hkv2 with hin | hin
      · exact hlt kv2 hin kv3 (by simp [hkv3])
      · simp at hin
        rw [hin]
        exact hhead kv3.1 (List.mem_map_of_mem Prod.fst hkv3)

theorem splitFirstCh_append (sep : Char) :
    ∀ (a b : List Char), sep ∉ a →
      splitFirstCh sep (a ++ sep :: b) = some (a, b) := by
  intro a
  induction a with
  | nil => intro b _; simp [splitFirstCh]
  | cons c cs ih =>
    intro b h
    rw [List.mem_cons] at h
    push_neg at h
    have hc : c ≠ sep := fun hcc => h.1 hcc.symm
    simp only [List.cons_append, splitFirstCh, if_neg hc, List.append_eq, ih b h.2]

theorem splitChAux_no_sep (sep : Char) :
    ∀ t : List Char, sep ∉ t → splitChAux sep t = (t, []) := by
  intro t
  induction t with
  | nil => intro _; rfl
  | cons c cs ih =>
    intro h
    rw [List.mem_cons] at h
    push_neg at h
    have hc : c ≠ sep := fun hcc => h.1 hcc.symm
    simp only [splitChAux, ih h.2, if_neg hc]

theorem splitChAux_append (sep : Char) :
    ∀ (a rest : List Char), sep ∉ a →
      splitChAux sep (a ++ sep :: rest) =
        (a, (splitChAux sep rest).1 :: (splitChAux sep rest).2) := by
  intro a rest
  induction a with
  | nil => intro _; simp [splitChAux]
  | cons c cs ih =>
    intro h
    rw [List.mem_cons] at h
    push_neg at h
    have hc : c ≠ sep := fun hcc => h.1 hcc.symm
    simp only [List.cons_append, splitChAux, List.append_eq, ih h.2, if_neg hc]

theorem splitChAux_join (sep : Char) :
    ∀ (ts : List (List Char)) (t : List Char), sep ∉ t → (∀ u ∈ ts, sep ∉ u) →
      splitChAux sep (joinChars sep (t :: ts)) = (t, ts) := by
  intro ts
  induction ts with
  | nil => intro t h1 _; simp [joinChars, splitChAux_no_sep sep t h1]
  | cons u us ih =>
    intro t h1 h2
    have hrec : splitChAux sep (joinChars sep (u :: us)) = (u, us) :=
      ih u (h2 u (by simp)) (fun w hw => h2 w (by simp [hw]))
    show splitChAux sep (t ++ sep :: joinChars sep (u :: us)) = (t, u :: us)
    rw [splitChAux_append sep t _ h1, hrec]

theorem joinChars_cons_ne_nil (sep : Char) (t : List Char) (ts : List (List Char))
    (h : t ≠ []) : joinChars sep (t :: ts) ≠ [] := by
  cases ts with
  | nil => simpa [joinChars] using h
  | cons u us =>
    show t ++ sep :: joinChars sep (u :: us) ≠ []
    simp

theorem joinChars_getLast (sep : Char) :
    ∀ (ts : List (List Char)) (t : List Char),
      (joinChars sep (ts ++ [t])).getLast? =
        if t = [] then (if ts = [] then none else some sep) else t.getLast? := by
  intro ts
  induction ts with
  | nil =>
    intro t
    cases t with
    | nil => simp [joinChars]
    | cons c cs => simp [joinChars]
  | cons u us ih =>
    intro t
    have hstep : joinChars sep ((u :: us) ++ [t]) =
        u ++ sep :: joinChars sep (us ++ [t]) := by
      cases us <;> rfl
    rw [hstep, List.getLast?_append_of_ne_nil u (by simp), List.getLast?_cons, ih t]
    by_cases ht : t = []
    · subst ht
      by_cases hus : us = ([] : List (List Char))
      · subst hus
        simp
      · simp [hus]
    · rcases ho : t.getLast? with _ | c
      · rw [List.getLast?_eq_none_iff] at ho
        exact absurd ho ht
      · simp [ht, ho]

theorem joinPipe_data :
    ∀ ss : List String, (joinPipe ss).data = joinChars '|' (ss.map String.data) := by
  intro ss
  induction ss with
  | nil => rfl
  | cons t ts ih =>
    cases ts with
    | nil => rfl
    | cons u us =>
      show ((t ++ "|") ++ joinPipe (u :: us)).data = _
      rw [String.data_append, String.data_append, ih]
      simp [joinChars]

theorem map_mk_data : ∀ ss : List String, (ss.map String.data).map String.mk = ss := by
  intro ss
  induction ss with
  | nil => rfl
  | cons t ts ih => simp [ih]

theorem cppGetlineSplit_joinPipe (t0 : String) (ss : List String)
    (h0 : t0.data ≠ []) (hsep : '|' ∉ t0.data) (hss : ∀ u ∈ ss, '|' ∉ u.data) :
    cppGetlineSplit '|' (joinPipe (t0 :: ss)) =
      if (joinChars '|' (t0.data :: ss.map String.data)).getLast? = some '|'
      then (t0 :: ss).dropLast else t0 :: ss := by
  have hdata : (joinPipe (t0 :: ss)).data =
      joinChars '|' (t0.data :: ss.map String.data) := joinPipe_data _
  have hne : joinChars '|' (t0.data :: ss.map String.data) ≠ [] :=
    joinChars_cons_ne_nil '|' t0.data (ss.map String.data) h0
  have hsplit : splitChAux '|' (joinChars '|' (t0.data :: ss.map String.data)) =
      (t0.data, ss.map String.data) :=
    splitChAux_join '|' (ss.map String.data) t0.data hsep (by
      intro u hu
      obtain ⟨w, hw, rfl⟩ := List.mem_map.mp hu
      exact hss w hw)
  rw [cppGetlineSplit, hdata]
  rw [if_neg (by simp [List.isEmpty_iff, hne])]
  simp only [hsplit]
  have hmk : ∀ u : String, String.mk u.data = u := fun _ => rfl
  simp [List.map_map, Function.comp_def, hmk]

theorem lookup_eq_none_of_not_mem :
    ∀ (l : List (String × String)) (k : String),
      k ∉ l.map Prod.fst → l.lookup k = none := by
  intro l k
  induction l with
  | nil => intro _; rfl
  | cons kv rest ih =>
    intro h
    simp only [List.map_cons, List.mem_cons] at h
    push_neg at h
    obtain ⟨k1, v1⟩ := kv
    simp only [List.lookup, beq_eq_false_iff_ne.mpr h.1, ih h.2]

theorem getCompactCode_of_not_key {k : String} (h : k ∉ fcmKeys) :
    getCompactCode k = k := by
  rw [getCompactCode, lookup_eq_none_of_not_mem FIELD_CODE_MAP k h]

theorem getFullFieldName_of_not_code {k : String} (h : k ∉ rfcmKeys) :
    getFullFieldName k = k := by
  rw [getFullFieldName, lookup_eq_none_of_not_mem REVERSE_FIELD_CODE_MAP k h]

theorem key_roundtrip_table :
    ∀ k ∈ fcmKeys, getFullFieldName (getCompactCode k) = k ∧
      '=' ∉ (getCompactCode k).data ∧ '|' ∉ (getCompactCode k).data := by
  decide

theorem value_roundtrip_table :
    ∀ v ∈ fcmKeys, parseDataValue (getCompactCode v) = v ∧
      '|' ∉ (getCompactCode v).data := by
  decide

theorem fcmKeys_not_numeric : ∀ k ∈ fcmKeys, valueIsNumeric k = false := by
  decide

theorem compactKey_facts {k : String} (hk : wireSafeKey k = true) :
    getFullFieldName (getCompactCode k) = k ∧ '=' ∉ (getCompactCode k).data ∧
      '|' ∉ (getCompactCode k).data := by
  simp only [wireSafeKey, Bool.and_eq_true, Bool.or_eq_true, Bool.not_eq_true'] at hk
  obtain ⟨⟨hpipe, heq⟩, htab⟩ := hk
  by_cases hf : k ∈ fcmKeys
  · exact key_roundtrip_table k hf
  · have hr : k ∉ rfcmKeys := by
      rcases htab with htab | htab
      · exact absurd (by simpa using htab) hf
      · simpa using htab
    rw [getCompactCode_of_not_key hf, getFullFieldName_of_not_code hr]
    exact ⟨rfl, by simpa using heq, by simpa using hpipe⟩

theorem compactValue_facts {v : String} (hv : wireSafeValue v = true) :
    parseDataValue (getCompactCode v) = v ∧ '|' ∉ (getCompactCode v).data := by
  simp only [wireSafeValue, Bool.and_eq_true, Bool.or_eq_true, Bool.not_eq_true',
    or_assoc] at hv
  obtain ⟨hpipe, htab⟩ := hv
  by_cases hf : v ∈ fcmKeys
  · exact value_roundtrip_table v hf
  · have hcc : getCompactCode v = v := getCompactCode_of_not_key hf
    rw [hcc]
    refine ⟨?_, by simpa using hpipe⟩
    by_cases hnum : valueIsNumeric v = true
    · simp [parseDataValue, hnum]
    · have hr : v ∉ rfcmKeys := by
        rcases htab with htab | htab | htab
        · exact absurd (by simpa using htab) hf
        · exact absurd htab hnum
        · simpa using htab
      rw [parseDataValue]
      split <;> try rfl
      exact getFullFieldName_of_not_code hr

theorem parseKVInto_serialized {k v : String} (hk : wireSafeKey k = true)
    (hv : wireSafeValue v = true) (d : List (String × String)) :
    parseKVInto d (getCompactCode k ++ "=" ++ getCompactCode v) = mapInsert k v d := by
  obtain ⟨hrt, heqfree, _⟩ := compactKey_facts hk
  obtain ⟨hval, _⟩ := compactValue_facts hv
  have hdata : (getCompactCode k ++ "=" ++ getCompactCode v).data =
      (getCompactCode k).data ++ '=' :: (getCompactCode v).data := by
    rw [String.data_append, String.data_append]
    simp
  rw [parseKVInto, hdata, splitFirstCh_append _ _ _ heqfree]
  show mapInsert (getFullFieldName (getCompactCode k))
      (parseDataValue (getCompactCode v)) d = mapInsert k v d
  rw [hrt, hval]

theorem foldl_parseKV_eq :
    ∀ (l : List (String × String)),
      (∀ kv ∈ l, wireSafeKey kv.1 = true ∧ wireSafeValue kv.2 = true) →
      ∀ d, l.foldl
          (fun d kv => parseKVInto d (getCompactCode kv.1 ++ "=" ++ getCompactCode kv.2)) d =
        l.foldl (fun d kv => mapInsert kv.1 kv.2 d) d := by
  intro l
  induction l with
  | nil => intro _ d; rfl
  | cons kv rest ih =>
    intro hents d
    simp only [List.foldl_cons]
    rw [parseKVInto_serialized (hents kv (by simp)).1 (hents kv (by simp)).2]
    exact ih (fun kv2 h2 => hents kv2 (by simp [h2])) _

theorem typeToken_facts {t : Int} (h : isValidMessageType t = true) :
    cppStoi (ToString.toString t) = some t ∧ '|' ∉ (ToString.toString t).data ∧
      (ToString.toString t).data ≠ [] := by
  simp only [isValidMessageType, Bool.or_eq_true, beq_iff_eq, or_assoc] at h
  rcases h with rfl|rfl|rfl|rfl|rfl|rfl|rfl|rfl|rfl|rfl|rfl|
    rfl|rfl|rfl|rfl|rfl|rfl|rfl|rfl|rfl|rfl|rfl <;>
    exact ⟨by decide, by decide, by decide⟩

theorem parse_serialize_data (msg : ProtocolMessage) (h : wellFormedMsg msg = true) :
    (ProtocolMessage.parse msg.serialize).data = msg.data := by
  simp only [wellFormedMsg, Bool.and_eq_true, Bool.not_eq_true', List.all_eq_true] at h
  obtain ⟨⟨⟨⟨hsort, hents⟩, hpid⟩, hrid⟩, htype⟩ := h
  have hWS : ∀ kv ∈ msg.data, wireSafeKey kv.1 = true ∧ wireSafeValue kv.2 = true := by
    intro kv hkv
    have := hents kv hkv
    simpa [Bool.and_eq_true] using this
  obtain ⟨hstoi, htpipe, htne⟩ := typeToken_facts htype
  have hpid2 : '|' ∉ msg.player_id.data := by simpa using hpid
  have hrid2 : '|' ∉ msg.room_id.data := by simpa using hrid
  have hdtokdata : ∀ kv ∈ msg.data,
      (getCompactCode kv.1 ++ "=" ++ getCompactCode kv.2).data =
        (getCompactCode kv.1).data ++ '=' :: (getCompactCode kv.2).data := by
    intro kv _
    rw [String.data_append, String.data_append]
    simp
  have hdtokpipe : ∀ u ∈ msg.data.map
      (fun kv => getCompactCode kv.1 ++ "=" ++ getCompactCode kv.2), '|' ∉ u.data := by
    intro u hu
    obtain ⟨kv, hkv, rfl⟩ := List.mem_map.mp hu
    rw [hdtokdata kv hkv]
    obtain ⟨-, -, hkp⟩ := compactKey_facts (hWS kv hkv).1
    obtain ⟨-, hvp⟩ := compactValue_facts (hWS kv hkv).2
    simp [List.mem_append, hkp, hvp]
  have hss : ∀ u ∈ msg.player_id :: msg.room_id ::
      msg.data.map (fun kv => getCompactCode kv.1 ++ "=" ++ getCompactCode kv.2),
      '|' ∉ u.data := by
    intro u hu
    rcases List.mem_cons.mp hu with rfl | hu
    · exact hpid2
    rcases List.mem_cons.mp hu with rfl | hu
    · exact hrid2
    exact hdtokpipe u hu
  have hserial : msg.serialize = joinPipe (ToString.toString msg.type ::
      msg.player_id :: msg.room_id ::
      msg.data.map (fun kv => getCompactCode kv.1 ++ "=" ++ getCompactCode kv.2)) := rfl
  have hsplitEq := cppGetlineSplit_joinPipe (ToString.toString msg.type)
    (msg.player_id :: msg.room_id ::
      msg.data.map (fun kv => getCompactCode kv.1 ++ "=" ++ getCompactCode kv.2))
    htne htpipe hss
  rw [hserial, ProtocolMessage.parse]
  by_cases hd : msg.data = []
  · simp only [hd, List.map_nil] at hsplitEq ⊢
    have hlist : (ToString.toString msg.type).data ::
        ([msg.player_id, msg.room_id] : List String).map String.data =
        [(ToString.toString msg.type).data, msg.player_id.data] ++ [msg.room_id.data] := rfl
    rw [hlist, joinChars_getLast] at hsplitEq
    by_cases hre : msg.room_id.data = []
    · rw [if_pos hre, if_neg (List.cons_ne_nil _ _), if_pos rfl] at hsplitEq
      rw [hsplitEq]
      simp [hstoi, List.dropLast]
    · rw [if_neg hre] at hsplitEq
      have hlast : msg.room_id.data.getLast? ≠ some '|' := by
        intro hcon
        exact hrid2 (List.mem_of_mem_getLast? hcon)
      rw [if_neg hlast] at hsplitEq
      rw [hsplitEq]
      simp [hstoi]
  · have hdts : msg.data.map
        (fun kv => getCompactCode kv.1 ++ "=" ++ getCompactCode kv.2) ≠ [] := by
      simpa using hd
    rcases (List.eq_nil_or_concat _).resolve_left hdts with ⟨dinit, dlast, hdec⟩
    have hdlast : dlast ∈ msg.data.map
        (fun kv => getCompactCode kv.1 ++ "=" ++ getCompactCode kv.2) := by
      rw [hdec]
      simp
    obtain ⟨kv, hkv, hfkv⟩ := List.mem_map.mp hdlast
    have hdldata : dlast.data =
        (getCompactCode kv.1).data ++ '=' :: (getCompactCode kv.2).data := by
      rw [← hfkv]
      exact hdtokdata kv hkv
    have hdlne : dlast.data ≠ [] := by
      rw [hdldata]
      simp
    have hdllast : dlast.data.getLast? ≠ some '|' := by
      intro hcon
      have : '|' ∈ dlast.data := List.mem_of_mem_getLast? hcon
      rw [← hfkv] at this
      exact hdtokpipe _ (List.mem_map_of_mem _ hkv) this
    have hlist2 : (ToString.toString msg.type).data ::
        (msg.player_id :: msg.room_id :: msg.data.map
          (fun kv => getCompactCode kv.1 ++ "=" ++ getCompactCode kv.2)).map String.data =
        ((ToString.toString msg.type).data :: msg.player_id.data :: msg.room_id.data ::
          dinit.map String.data) ++ [dlast.data] := by
      rw [hdec]
      simp
    rw [hlist2, joinChars_getLast, if_neg hdlne] at hsplitEq
    rw [if_neg hdllast] at hsplitEq
    rw [hsplitEq]
    simp only [hstoi]
    rw [List.foldl_map]
    rw [foldl_parseKV_eq msg.data hWS]
    rw [foldl_mapInsert_append msg.data [] hsort (by simp)]
    simp

/-! ## Claim C7 — codec round trip -/

/-- Claim C7, counterexample: the message `c7BadMsg` carries the data
map `[("name", "h")]` — a player literally named `h`.  `serialize` does
not substitute the value (`h` is not a verbose field name), but `parse`
rewrites the non-numeric value `h` through `REVERSE_FIELD_CODE_MAP` to
`hand`, so the round trip changes the data map. -/
theorem C7_counterexample :
    ProtocolMessage.serialize c7BadMsg = "0|||nm=h" ∧
    (ProtocolMessage.parse (ProtocolMessage.serialize c7BadMsg)).data =
      [("name", "hand")] ∧
    c7BadMsg.data = [("name", "h")] ∧
    (ProtocolMessage.parse (ProtocolMessage.serialize c7BadMsg)).data ≠
      c7BadMsg.data := by
  refine ⟨by decide, by decide, rfl, by decide⟩

/-- Claim C7, amended: for every `ProtocolMessage` whose data map is
well formed in the wire sense — keys strictly sorted, keys and values
free of the frame and key-value delimiters, and no key or value that is
a bare compact code without being a verbose table name (values may also
be numeric), with delimiter-free ids and a genuine `MessageType` code —
parsing the serialization yields exactly the original data map: numeric
values are preserved and the compact-code substitution of `serialize`
is inverted by `parse`. -/
theorem C7_roundtrip_wellformed (msg : ProtocolMessage)
    (h : wellFormedMsg msg = true) :
    (ProtocolMessage.parse msg.serialize).data = msg.data :=
  parse_serialize_data msg h

/-- Witness for `C7_roundtrip_wellformed`: a concrete well-formed
GAME_STATE message whose data map survives the round trip. -/
theorem C7_roundtrip_wellformed_witness :
    wellFormedMsg c7GoodMsg = true ∧
    (ProtocolMessage.parse (ProtocolMessage.serialize c7GoodMsg)).data =
      c7GoodMsg.data :=
  ⟨by decide, C7_roundtrip_wellformed c7GoodMsg (by decide)⟩

end UPSGamba
